import Mathlib

/-!
# Verification of the agentic-cli LangGraph workflows

Shallow embedding of the repository's state model (`src/core/state.py`),
subprocess tool (`src/tools/subprocess.py`) and graph workflows
(`src/graphs/executor.py`, `src/graphs/planner.py`, `src/graphs/researcher.py`,
`src/graphs/main.py`).

Modelling conventions:
* LangGraph nodes are functions `GlobalState → Except PyError StateUpdate`:
  a node either raises a Python exception (modelled by `PyError`) or returns a
  partial state update (a dict of channel writes).  Updates are applied with
  `applyUpdate`: the `messages` channel uses the `add_messages` reducer
  (append), every other channel is overwrite-on-write.
* Python list indexing `l[i]` is `pyIndex` (raises `IndexError` out of range);
  `l[-1]` is `pyLast`; `l[0]` is `pyFirst`.
* Python string methods `lower`/`upper`/`strip` and the substring test
  `needle in hay` are modelled over the character list of the string
  (`pyLower`, `pyUpper`, `pyStrip`, `strContains`).
* LLM completions, the web-search tool and the operating system are
  environment inputs, so they are oracle parameters: any function the theorem
  quantifies over.  `ProcOutcome` is what the OS does with a spawned process
  (normal exit, timeout, or a raised exception in `Popen`/`communicate`).
-/

deriving instance DecidableEq for Except

namespace AgenticCli

/-- Python exceptions that the embedded code can raise. `fuelError` is an
artifact of the fuel-based interpreter and is never produced when enough fuel
is supplied. -/
inductive PyError where
  | indexError
  | keyError
  | typeError
  | fuelError
deriving Repr, DecidableEq

/-- Python `l[i]` for `i ≥ 0`: the element, or `IndexError` out of range. -/
def pyIndex {α : Type} (l : List α) (i : Nat) : Except PyError α :=
  if h : i < l.length then Except.ok (l.get ⟨i, h⟩) else Except.error PyError.indexError

/-- Python `l[-1]`. On the empty list `length - 1 = 0` and `pyIndex` raises,
matching Python's `IndexError`. -/
def pyLast {α : Type} (l : List α) : Except PyError α :=
  pyIndex l (l.length - 1)

/-- Python `l[0]`. -/
def pyFirst {α : Type} (l : List α) : Except PyError α :=
  pyIndex l 0

/-- Python `str.lower()` (ASCII range, which covers every string the code
compares against). -/
def pyLower (s : String) : String :=
  String.mk (s.data.map Char.toLower)

/-- Python `str.upper()` (ASCII range). -/
def pyUpper (s : String) : String :=
  String.mk (s.data.map Char.toUpper)

/-- Python `str.strip()`: remove leading and trailing whitespace. -/
def pyStrip (s : String) : String :=
  String.mk (((s.data.dropWhile Char.isWhitespace).reverse.dropWhile Char.isWhitespace).reverse)

/-- Contiguous sublist test: does `needle` occur somewhere inside `hay`? -/
def listContains (needle : List Char) : List Char → Bool
  | [] => needle.isEmpty
  | c :: t => needle.isPrefixOf (c :: t) || listContains needle t

/-- Python `needle in hay` on strings: contiguous substring test. -/
def strContains (hay needle : String) : Bool :=
  listContains needle.data hay.data

/-- Python `state.get(key, default)` for the ad-hoc keys
(`"_grader_decision"`, `"_route_target"`) that are not channels of the
`GlobalState` TypedDict schema.  LangGraph silently drops node writes to keys
outside the schema, so such a key is never present in the state and the
default is always returned. -/
def pyGetNonSchema (default : String) : String :=
  default

/-- A plan step (`PlanStep` TypedDict in `src/core/state.py`). -/
structure PlanStep where
  id : String
  description : String
  command : Option String
  risk_level : String
  status : String
  output : Option String
deriving Repr, DecidableEq

/-- One record of `execution_history`.  The source appends plain dicts; a
field is `none` when the corresponding key is absent from the dict (the
no-command record in `terminal_runner` only has `command` and `output` keys). -/
structure HistoryItem where
  step_id : Option String
  command : Option String
  return_code : Option Int
  output : String
deriving Repr, DecidableEq

/-- The `GlobalState` TypedDict of `src/core/state.py`.  Messages are
represented by their text content.  These annotated keys are the *only*
channels a `StateGraph(GlobalState)` has: the ad-hoc `"_grader_decision"` /
`"_route_target"` keys some nodes return are not part of the schema and never
reach the state (see `applyUpdate`). -/
structure GlobalState where
  messages : List String
  plan : List PlanStep
  current_step_index : Nat
  research_outputs : List String
  execution_history : List HistoryItem
  user_validated : Bool
  file_context : List (String × String)
deriving Repr, DecidableEq

/-- A partial state update returned by a node: one optional write per
channel (`none` = key absent from the returned dict).  `messages` is a list
of messages to append, because that channel's reducer is `add_messages`.
`grader_decision` / `route_target` represent the ad-hoc
`"_grader_decision"` / `"_route_target"` keys a node may put in its returned
dict; they are not schema channels, so `applyUpdate` discards them. -/
structure StateUpdate where
  messages : List String := []
  plan : Option (List PlanStep) := none
  current_step_index : Option Nat := none
  research_outputs : Option (List String) := none
  execution_history : Option (List HistoryItem) := none
  user_validated : Option Bool := none
  file_context : Option (List (String × String)) := none
  grader_decision : Option String := none
  route_target : Option String := none
deriving Repr, DecidableEq

/-- Apply a node's partial update to the state: append to `messages`,
overwrite any other written schema channel, keep unwritten channels.
Writes to keys outside the `GlobalState` schema (`grader_decision`,
`route_target`) are silently dropped, as LangGraph does. -/
def applyUpdate (s : GlobalState) (u : StateUpdate) : GlobalState where
  messages := s.messages ++ u.messages
  plan := u.plan.getD s.plan
  current_step_index := u.current_step_index.getD s.current_step_index
  research_outputs := u.research_outputs.getD s.research_outputs
  execution_history := u.execution_history.getD s.execution_history
  user_validated := u.user_validated.getD s.user_validated
  file_context := u.file_context.getD s.file_context

theorem applyUpdate_empty (s : GlobalState) : applyUpdate s {} = s := by
  cases s
  simp [applyUpdate]

/-! ## `src/tools/subprocess.py` -/

/-- What the operating system does with a command handed to
`subprocess.Popen(..., shell=True)`: normal completion with a return code and
captured streams, a `TimeoutExpired` in `communicate` (with the partial output
recovered after `kill`), or some other raised exception. -/
inductive ProcOutcome where
  | completed (returncode : Int) (stdout : String) (stderr : String)
  | timedOut (outs : Option String) (errs : Option String)
  | raised (msg : String)

/-- Result of `SafeSubprocess.run`: the `(return_code, stdout, stderr)` triple
plus a ghost flag recording whether a process was spawned on the way. -/
structure RunResult where
  returncode : Int
  stdout : String
  stderr : String
  spawned : Bool
deriving Repr, DecidableEq

/-- The fail-safe denylist of `SafeSubprocess.run`. -/
def forbidden_patterns : List String := ["rm -rf /", "format c:", "rd /s /q c:\\"]

/-- Function `SafeSubprocess.run` from `src/tools/subprocess.py`, parameterised by the
OS behaviour `exec`.  The denylist check happens before any spawn; the three
`ProcOutcome` cases correspond to the three return paths of the `try` block. -/
def SafeSubprocess.run (exec : String → ProcOutcome) (timeout_val : Nat)
    (command : String) : RunResult :=
  match forbidden_patterns.find? (fun pat => strContains (pyLower command) pat) with
  | some _ =>
      { returncode := -1, stdout := "",
        stderr := "CRITICAL SECURITY: Command blocked by SafeSubprocess: " ++ command,
        spawned := false }
  | none =>
      match exec command with
      | ProcOutcome.completed rc out err =>
          { returncode := rc, stdout := out, stderr := err, spawned := true }
      | ProcOutcome.timedOut outs errs =>
          { returncode := 124, stdout := outs.getD "",
            stderr := "Command timed out after " ++ toString timeout_val ++ "s. " ++ errs.getD "",
            spawned := true }
      | ProcOutcome.raised msg =>
          { returncode := -1, stdout := "", stderr := "Execution failed: " ++ msg,
            spawned := true }

/-! ## `src/graphs/executor.py` -/

/-- The nodes of the Executor sub-workflow. `parseStep` is the node registered
as `"step_parser"` in `create_executor_graph`; `end_` is LangGraph's `END`. -/
inductive ExecNode where
  | parseStep
  | safety_guard
  | terminal_runner
  | error_handler
  | end_
deriving Repr, DecidableEq

/-- Python `step["status"] = v` on a plan-step dict. -/
def stepWithStatus (st : PlanStep) (v : String) : PlanStep :=
  { st with status := v }

/-- Python `step["status"] = "done"; step["output"] = out`. -/
def stepDone (st : PlanStep) (out : String) : PlanStep :=
  { st with status := "done", output := some out }

/-- Python `step["status"] = "failed"; step["output"] = out`. -/
def stepFailed (st : PlanStep) (out : String) : PlanStep :=
  { st with status := "failed", output := some out }

/-- The `step_parser` node: marks `plan[idx]` as `in_progress`, or returns the
index unchanged when `idx >= len(plan)` (termination is supposed to be handled
by the surrounding edges). -/
def parseStepNode (s : GlobalState) : Except PyError StateUpdate :=
  let plan := s.plan
  let idx := s.current_step_index
  if idx ≥ plan.length then
    Except.ok { current_step_index := some idx }
  else
    match pyIndex plan idx with
    | Except.error e => Except.error e
    | Except.ok current_step =>
        Except.ok { plan := some (plan.set idx (stepWithStatus current_step "in_progress")) }

/-- The `safety_guard` node: reads `plan[idx]` (raising `IndexError` when out
of range), then `command = step.get("command", "")`.  The `.get` default
applies only to an *absent* key (represented as `some ""`, like an empty
command); for a present-but-null command (`none`, the planner's
thought/manual steps) it returns `None`, and the following
`"rm -rf /" in command` raises `TypeError`.  Otherwise the node returns
either `{"plan": plan}` (command contains `"rm -rf /"`) or the empty update.
The `user_validated` check in the source is a `pass`. -/
def safety_guard (s : GlobalState) : Except PyError StateUpdate :=
  match pyIndex s.plan s.current_step_index with
  | Except.error e => Except.error e
  | Except.ok step =>
      match step.command with
      | none => Except.error PyError.typeError
      | some command =>
          if strContains command "rm -rf /" then
            Except.ok { plan := some s.plan }
          else
            Except.ok {}

/-- The no-command history record appended by `terminal_runner`:
`{"command": None, "output": "Skipped (no command)"}` — no `step_id` key and
no `return_code` key. -/
def skippedHistoryItem : HistoryItem :=
  { step_id := none, command := none, return_code := none, output := "Skipped (no command)" }

/-- The `terminal_runner` node.  A falsy command (absent or empty string)
marks the step `done` with the fixed output and advances the index; otherwise
the command runs through `SafeSubprocess.run` with the default 60s timeout:
exit code 0 marks `done` and advances, any other exit code marks `failed` and
leaves `current_step_index` unwritten. -/
def terminal_runner (exec : String → ProcOutcome) (s : GlobalState) :
    Except PyError StateUpdate :=
  match pyIndex s.plan s.current_step_index with
  | Except.error e => Except.error e
  | Except.ok step =>
      let idx := s.current_step_index
      let plan := s.plan
      if step.command.getD "" = "" then
        Except.ok
          { plan := some (plan.set idx (stepDone step "(No command executed)")),
            current_step_index := some (idx + 1),
            execution_history := some (s.execution_history ++ [skippedHistoryItem]) }
      else
        let command := step.command.getD ""
        let r := SafeSubprocess.run exec 60 command
        let output := r.stdout ++ "\n" ++ r.stderr
        let history_item : HistoryItem :=
          { step_id := some step.id, command := some command,
            return_code := some r.returncode, output := output }
        if r.returncode = 0 then
          Except.ok
            { plan := some (plan.set idx (stepDone step output)),
              current_step_index := some (idx + 1),
              execution_history := some (s.execution_history ++ [history_item]) }
        else
          Except.ok
            { plan := some (plan.set idx (stepFailed step output)),
              execution_history := some (s.execution_history ++ [history_item]) }

/-- The `error_handler` node: appends a system message and stops. -/
def error_handler (s : GlobalState) : Except PyError StateUpdate :=
  Except.ok
    { messages := ["Execution failed at step " ++ toString (s.current_step_index + 1) ++ "."] }

/-- The `check_execution_result` conditional edge: reads `plan[idx]` (raising
`IndexError` at the end of a fully successful plan), routes a `failed` step to
`error_handler` and everything else back to `step_parser`.  The `idx >= len`
test in the source is dead code behind the indexing and both of its branches
return `"step_parser"`. -/
def check_execution_result (s : GlobalState) : Except PyError ExecNode :=
  match pyIndex s.plan s.current_step_index with
  | Except.error e => Except.error e
  | Except.ok current_step =>
      if current_step.status = "failed" then
        Except.ok ExecNode.error_handler
      else if s.current_step_index ≥ s.plan.length then
        Except.ok ExecNode.parseStep
      else
        Except.ok ExecNode.parseStep

/-- The `check_step_completion` edge function.  It is defined in
`src/graphs/executor.py` but `create_executor_graph` never wires it into the
workflow: no conditional edge leaves `step_parser`. -/
def check_step_completion (s : GlobalState) : Except PyError String :=
  if s.current_step_index ≥ s.plan.length then
    Except.ok "end"
  else
    match pyIndex s.plan s.current_step_index with
    | Except.error e => Except.error e
    | Except.ok step =>
        if step.status = "failed" then Except.ok "end" else Except.ok "terminal_runner"

/-- One transition of the compiled Executor graph: run the node at `n`, apply
its update, and follow the (unconditional or conditional) outgoing edge wired
by `create_executor_graph`: `step_parser → safety_guard → terminal_runner`,
`terminal_runner → check_execution_result`, `error_handler → END`. -/
def execStep (exec : String → ProcOutcome) (n : ExecNode) (s : GlobalState) :
    Except PyError (ExecNode × GlobalState) :=
  match n with
  | ExecNode.parseStep =>
      (parseStepNode s).map (fun u => (ExecNode.safety_guard, applyUpdate s u))
  | ExecNode.safety_guard =>
      (safety_guard s).map (fun u => (ExecNode.terminal_runner, applyUpdate s u))
  | ExecNode.terminal_runner =>
      match terminal_runner exec s with
      | Except.error e => Except.error e
      | Except.ok u =>
          let s' := applyUpdate s u
          (check_execution_result s').map (fun n' => (n', s'))
  | ExecNode.error_handler =>
      (error_handler s).map (fun u => (ExecNode.end_, applyUpdate s u))
  | ExecNode.end_ => Except.ok (ExecNode.end_, s)

/-- Outcome of running a graph to completion: reached `END`, halted on a
raised Python exception, or ran out of interpreter fuel. -/
inductive Outcome (ν : Type) where
  | finished (s : GlobalState)
  | errored (e : PyError) (n : ν) (s : GlobalState)
  | outOfFuel (n : ν) (s : GlobalState)
deriving Repr, DecidableEq

/-- The run halted (normally or on an exception) rather than exhausting fuel. -/
def Outcome.halts {ν : Type} : Outcome ν → Bool
  | Outcome.outOfFuel _ _ => false
  | _ => true

/-- Fuel-based interpreter of the Executor graph.  Returns the outcome and the
trace of `(node, state-on-entry)` visits.  The second `Nat` counts previous
`terminal_runner` visits so the OS oracle `exec` may behave differently on
every spawn. -/
def execRun (exec : Nat → String → ProcOutcome) :
    Nat → Nat → ExecNode → GlobalState → Outcome ExecNode × List (ExecNode × GlobalState)
  | 0, _, n, s => (Outcome.outOfFuel n s, [])
  | fuel + 1, k, n, s =>
      if n = ExecNode.end_ then
        (Outcome.finished s, [])
      else
        match execStep (exec k) n s with
        | Except.error e => (Outcome.errored e n s, [(n, s)])
        | Except.ok (n', s') =>
            let r := execRun exec fuel (if n = ExecNode.terminal_runner then k + 1 else k) n' s'
            (r.1, (n, s) :: r.2)

/-- Indices of the steps on which `terminal_runner` ran, in visit order. -/
def runnerIdxs (tr : List (ExecNode × GlobalState)) : List Nat :=
  (tr.filter (fun p => decide (p.1 = ExecNode.terminal_runner))).map
    (fun p => p.2.current_step_index)

/-! ### Update-application shapes -/

theorem applyUpdate_idx_self (s : GlobalState) :
    applyUpdate s { current_step_index := some s.current_step_index } = s := by
  cases s
  simp [applyUpdate, Option.or]

theorem applyUpdate_plan (s : GlobalState) (p : List PlanStep) :
    applyUpdate s { plan := some p } = { s with plan := p } := by
  cases s
  simp [applyUpdate, Option.or]

theorem applyUpdate_msgs (s : GlobalState) (m : List String) :
    applyUpdate s { messages := m } = { s with messages := s.messages ++ m } := by
  cases s
  simp [applyUpdate, Option.or]

theorem applyUpdate_run_adv (s : GlobalState) (p : List PlanStep) (j : Nat)
    (h : List HistoryItem) :
    applyUpdate s { plan := some p, current_step_index := some j, execution_history := some h }
      = { s with plan := p, current_step_index := j, execution_history := h } := by
  cases s
  simp [applyUpdate, Option.or]

theorem applyUpdate_run_fail (s : GlobalState) (p : List PlanStep) (h : List HistoryItem) :
    applyUpdate s { plan := some p, execution_history := some h }
      = { s with plan := p, execution_history := h } := by
  cases s
  simp [applyUpdate, Option.or]

/-! ### Per-node transition lemmas -/

/-- The state after `step_parser` marks the current step `in_progress`
(identity when the index is out of range). -/
def markInProgress (s : GlobalState) : GlobalState :=
  match pyIndex s.plan s.current_step_index with
  | Except.error _ => s
  | Except.ok st =>
      { s with plan := s.plan.set s.current_step_index (stepWithStatus st "in_progress") }

theorem pyIndex_ok {α : Type} (l : List α) (i : Nat) (h : i < l.length) :
    pyIndex l i = Except.ok l[i] := by
  simp [pyIndex, h]

theorem pyIndex_err {α : Type} (l : List α) (i : Nat) (h : l.length ≤ i) :
    pyIndex l i = Except.error PyError.indexError := by
  simp [pyIndex, Nat.not_lt.mpr h]

theorem markInProgress_eq (s : GlobalState) (h : s.current_step_index < s.plan.length) :
    markInProgress s =
      { s with plan :=
          s.plan.set s.current_step_index (stepWithStatus (s.plan[s.current_step_index]) "in_progress") } := by
  simp [markInProgress, pyIndex_ok _ _ h]

theorem markInProgress_plan_length (s : GlobalState) :
    (markInProgress s).plan.length = s.plan.length := by
  unfold markInProgress
  cases hpy : pyIndex s.plan s.current_step_index <;> simp

theorem markInProgress_idx (s : GlobalState) :
    (markInProgress s).current_step_index = s.current_step_index := by
  unfold markInProgress
  cases hpy : pyIndex s.plan s.current_step_index <;> simp

theorem execStep_parse_ge (e : String → ProcOutcome) (s : GlobalState)
    (h : s.plan.length ≤ s.current_step_index) :
    execStep e ExecNode.parseStep s = Except.ok (ExecNode.safety_guard, s) := by
  have h1 : parseStepNode s = Except.ok { current_step_index := some s.current_step_index } := by
    simp [parseStepNode, h]
  simp [execStep, h1, Except.map, applyUpdate_idx_self]

theorem execStep_parse_lt (e : String → ProcOutcome) (s : GlobalState)
    (h : s.current_step_index < s.plan.length) :
    execStep e ExecNode.parseStep s = Except.ok (ExecNode.safety_guard, markInProgress s) := by
  have h1 : parseStepNode s = Except.ok
      { plan := some (s.plan.set s.current_step_index
          (stepWithStatus (s.plan[s.current_step_index]) "in_progress")) } := by
    simp [parseStepNode, Nat.not_le.mpr h, pyIndex_ok _ _ h]
  simp [execStep, h1, Except.map, applyUpdate_plan, markInProgress_eq s h]

theorem execStep_guard_some (e : String → ProcOutcome) (s : GlobalState)
    (st : PlanStep) (c : String)
    (hpy : pyIndex s.plan s.current_step_index = Except.ok st)
    (hc : st.command = some c) :
    execStep e ExecNode.safety_guard s = Except.ok (ExecNode.terminal_runner, s) := by
  have hself : ({ s with plan := s.plan } : GlobalState) = s := by cases s; rfl
  by_cases hrm : strContains c "rm -rf /" = true
  · simp [execStep, safety_guard, hpy, hc, hrm, Except.map, applyUpdate_plan, hself]
  · simp [execStep, safety_guard, hpy, hc, hrm, Except.map, applyUpdate_empty]

theorem execStep_guard_none (e : String → ProcOutcome) (s : GlobalState) (st : PlanStep)
    (hpy : pyIndex s.plan s.current_step_index = Except.ok st)
    (hc : st.command = none) :
    execStep e ExecNode.safety_guard s = Except.error PyError.typeError := by
  simp [execStep, safety_guard, hpy, hc, Except.map]

theorem execStep_guard_ge (e : String → ProcOutcome) (s : GlobalState)
    (h : s.plan.length ≤ s.current_step_index) :
    execStep e ExecNode.safety_guard s = Except.error PyError.indexError := by
  simp [execStep, safety_guard, pyIndex_err _ _ h, Except.map]

/-- The state produced by `error_handler`. -/
def ehState (s : GlobalState) : GlobalState :=
  { s with messages :=
      s.messages ++ ["Execution failed at step " ++ toString (s.current_step_index + 1) ++ "."] }

theorem execStep_eh (e : String → ProcOutcome) (s : GlobalState) :
    execStep e ExecNode.error_handler s = Except.ok (ExecNode.end_, ehState s) := by
  simp [execStep, error_handler, Except.map, ehState, applyUpdate_msgs]

theorem ehState_idx (s : GlobalState) : (ehState s).current_step_index = s.current_step_index :=
  rfl

theorem ehState_plan (s : GlobalState) : (ehState s).plan = s.plan := rfl

/-! ### Interpreter unfolding lemmas -/

theorem execRun_end (exec : Nat → String → ProcOutcome) (f k : Nat) (s : GlobalState) :
    execRun exec (f + 1) k ExecNode.end_ s = (Outcome.finished s, []) := by
  simp [execRun]

theorem execRun_err (exec : Nat → String → ProcOutcome) (f k : Nat) (n : ExecNode)
    (s : GlobalState) (e : PyError) (hn : n ≠ ExecNode.end_)
    (h : execStep (exec k) n s = Except.error e) :
    execRun exec (f + 1) k n s = (Outcome.errored e n s, [(n, s)]) := by
  simp [execRun, hn, h]

theorem execRun_cons (exec : Nat → String → ProcOutcome) (f k : Nat) (n : ExecNode)
    (s : GlobalState) (n' : ExecNode) (s' : GlobalState) (hn : n ≠ ExecNode.end_)
    (h : execStep (exec k) n s = Except.ok (n', s')) :
    execRun exec (f + 1) k n s =
      ((execRun exec f (if n = ExecNode.terminal_runner then k + 1 else k) n' s').1,
        (n, s) :: (execRun exec f (if n = ExecNode.terminal_runner then k + 1 else k) n' s').2) := by
  simp [execRun, hn, h]

theorem execRun_eh (exec : Nat → String → ProcOutcome) (f k : Nat) (s : GlobalState) :
    execRun exec (f + 2) k ExecNode.error_handler s
      = (Outcome.finished (ehState s), [(ExecNode.error_handler, s)]) := by
  rw [show f + 2 = (f + 1) + 1 from rfl,
    execRun_cons exec (f + 1) k ExecNode.error_handler s ExecNode.end_ (ehState s)
      (by simp) (execStep_eh _ s)]
  simp [execRun_end]

/-! ### Shape of a `terminal_runner` visit -/

/-- State after an advancing `terminal_runner` update is applied. -/
def advState (s : GlobalState) (p : List PlanStep) (hi : List HistoryItem) : GlobalState :=
  { s with plan := p, current_step_index := s.current_step_index + 1, execution_history := hi }

/-- State after a failing `terminal_runner` update is applied. -/
def failState (s : GlobalState) (p : List PlanStep) (hi : List HistoryItem) : GlobalState :=
  { s with plan := p, execution_history := hi }

/-- On an in-range step, `terminal_runner` returns one of exactly two update
shapes: an *advance* update (skipped step or exit code 0: plan rewritten,
index incremented, history appended) or a *failure* update (plan rewritten
with the step `failed`, history appended, index unwritten). -/
theorem terminal_runner_shape (e : String → ProcOutcome) (s : GlobalState)
    (h : s.current_step_index < s.plan.length) :
    (∃ p hi, p.length = s.plan.length ∧
        terminal_runner e s = Except.ok
          { plan := some p, current_step_index := some (s.current_step_index + 1),
            execution_history := some hi }) ∨
    (∃ p hi, p.length = s.plan.length ∧
        (∃ hp : s.current_step_index < p.length,
          (p.get ⟨s.current_step_index, hp⟩).status = "failed") ∧
        terminal_runner e s = Except.ok { plan := some p, execution_history := some hi }) := by
  by_cases hc : (s.plan[s.current_step_index]).command.getD "" = ""
  · have hu : terminal_runner e s = Except.ok
        { plan := some (s.plan.set s.current_step_index
            (stepDone (s.plan[s.current_step_index]) "(No command executed)")),
          current_step_index := some (s.current_step_index + 1),
          execution_history := some (s.execution_history ++ [skippedHistoryItem]) } := by
      simp [terminal_runner, pyIndex_ok _ _ h, hc]
    exact Or.inl ⟨_, _, by simp, hu⟩
  · by_cases hrc :
      (SafeSubprocess.run e 60 ((s.plan[s.current_step_index]).command.getD "")).returncode = 0
    · have hu : terminal_runner e s = Except.ok
          { plan := some (s.plan.set s.current_step_index
              (stepDone (s.plan[s.current_step_index])
                ((SafeSubprocess.run e 60 ((s.plan[s.current_step_index]).command.getD "")).stdout
                  ++ "\n" ++
                  (SafeSubprocess.run e 60
                    ((s.plan[s.current_step_index]).command.getD "")).stderr))),
            current_step_index := some (s.current_step_index + 1),
            execution_history := some (s.execution_history ++
              [{ step_id := some (s.plan[s.current_step_index]).id,
                 command := some ((s.plan[s.current_step_index]).command.getD ""),
                 return_code := some (SafeSubprocess.run e 60
                   ((s.plan[s.current_step_index]).command.getD "")).returncode,
                 output :=
                   (SafeSubprocess.run e 60
                     ((s.plan[s.current_step_index]).command.getD "")).stdout ++ "\n" ++
                   (SafeSubprocess.run e 60
                     ((s.plan[s.current_step_index]).command.getD "")).stderr }]) } := by
        simp [terminal_runner, pyIndex_ok _ _ h, hc, hrc]
      exact Or.inl ⟨_, _, by simp, hu⟩
    · have hu : terminal_runner e s = Except.ok
          { plan := some (s.plan.set s.current_step_index
              (stepFailed (s.plan[s.current_step_index])
                ((SafeSubprocess.run e 60 ((s.plan[s.current_step_index]).command.getD "")).stdout
                  ++ "\n" ++
                  (SafeSubprocess.run e 60
                    ((s.plan[s.current_step_index]).command.getD "")).stderr))),
            execution_history := some (s.execution_history ++
              [{ step_id := some (s.plan[s.current_step_index]).id,
                 command := some ((s.plan[s.current_step_index]).command.getD ""),
                 return_code := some (SafeSubprocess.run e 60
                   ((s.plan[s.current_step_index]).command.getD "")).returncode,
                 output :=
                   (SafeSubprocess.run e 60
                     ((s.plan[s.current_step_index]).command.getD "")).stdout ++ "\n" ++
                   (SafeSubprocess.run e 60
                     ((s.plan[s.current_step_index]).command.getD "")).stderr }]) } := by
        simp [terminal_runner, pyIndex_ok _ _ h, hc, hrc]
      refine Or.inr ⟨_, _, by simp, ⟨by simpa using h, ?_⟩, hu⟩
      simp [stepFailed]

/-- Advancing `terminal_runner` visit followed by `check_execution_result`:
either the run proceeds (to `step_parser` or, if the next step is already
marked failed, to `error_handler`) with the index incremented, or the edge
itself raises `IndexError` reading past the end of the plan. -/
theorem execStep_runner_of_adv (e : String → ProcOutcome) (s : GlobalState)
    (p : List PlanStep) (hi : List HistoryItem)
    (hu : terminal_runner e s = Except.ok
      { plan := some p, current_step_index := some (s.current_step_index + 1),
        execution_history := some hi }) :
    (∃ n2, (n2 = ExecNode.parseStep ∨ n2 = ExecNode.error_handler) ∧
        execStep e ExecNode.terminal_runner s = Except.ok (n2, advState s p hi)) ∨
    execStep e ExecNode.terminal_runner s = Except.error PyError.indexError := by
  by_cases h2 : s.current_step_index + 1 < p.length
  · by_cases h3 : (p[s.current_step_index + 1]).status = "failed"
    · refine Or.inl ⟨ExecNode.error_handler, Or.inr rfl, ?_⟩
      simp [execStep, hu, applyUpdate_run_adv, advState, check_execution_result,
        pyIndex_ok _ _ h2, h3, Except.map]
    · refine Or.inl ⟨ExecNode.parseStep, Or.inl rfl, ?_⟩
      simp [execStep, hu, applyUpdate_run_adv, advState, check_execution_result,
        pyIndex_ok _ _ h2, h3, Except.map]
  · refine Or.inr ?_
    simp [execStep, hu, applyUpdate_run_adv, advState, check_execution_result,
      pyIndex_err _ _ (Nat.le_of_not_lt h2), Except.map]

/-- Failing `terminal_runner` visit: `check_execution_result` sees the step
marked `failed` at the unchanged index and routes to `error_handler`. -/
theorem execStep_runner_of_fail (e : String → ProcOutcome) (s : GlobalState)
    (p : List PlanStep) (hi : List HistoryItem)
    (hfail : ∃ hp : s.current_step_index < p.length,
        (p.get ⟨s.current_step_index, hp⟩).status = "failed")
    (hu : terminal_runner e s = Except.ok { plan := some p, execution_history := some hi }) :
    execStep e ExecNode.terminal_runner s = Except.ok
      (ExecNode.error_handler, failState s p hi) := by
  obtain ⟨hp, hst⟩ := hfail
  have hst2 : (p[s.current_step_index]).status = "failed" := hst
  simp [execStep, hu, applyUpdate_run_fail, failState, check_execution_result,
    pyIndex_ok _ _ hp, Except.map, hst2]

/-! ### The Executor loop invariant -/

/-- Relation between consecutive trace entries: after a `terminal_runner`
visit, either the index strictly incremented (success) or control moved to
`error_handler` (failure) in the very next edge evaluation. -/
def stepRel (p q : ExecNode × GlobalState) : Prop :=
  p.1 = ExecNode.terminal_runner →
    (q.2.current_step_index = p.2.current_step_index + 1 ∨ q.1 = ExecNode.error_handler)

theorem stepRel_of_ne {p q : ExecNode × GlobalState}
    (h : ¬ p.1 = ExecNode.terminal_runner) : stepRel p q :=
  fun hh => absurd hh h

theorem advState_idx (s : GlobalState) (p : List PlanStep) (hi : List HistoryItem) :
    (advState s p hi).current_step_index = s.current_step_index + 1 := rfl

theorem advState_plan (s : GlobalState) (p : List PlanStep) (hi : List HistoryItem) :
    (advState s p hi).plan = p := rfl

theorem failState_idx (s : GlobalState) (p : List PlanStep) (hi : List HistoryItem) :
    (failState s p hi).current_step_index = s.current_step_index := rfl

theorem failState_plan (s : GlobalState) (p : List PlanStep) (hi : List HistoryItem) :
    (failState s p hi).plan = p := rfl

theorem runnerIdxs_nil : runnerIdxs [] = [] := rfl

theorem runnerIdxs_cons (n : ExecNode) (s : GlobalState) (tr : List (ExecNode × GlobalState)) :
    runnerIdxs ((n, s) :: tr) =
      if n = ExecNode.terminal_runner then s.current_step_index :: runnerIdxs tr
      else runnerIdxs tr := by
  by_cases h : n = ExecNode.terminal_runner <;> simp [runnerIdxs, h]

theorem runnerIdxs_cons_ps (s : GlobalState) (tr : List (ExecNode × GlobalState)) :
    runnerIdxs ((ExecNode.parseStep, s) :: tr) = runnerIdxs tr := by
  simp [runnerIdxs]

theorem runnerIdxs_cons_sg (s : GlobalState) (tr : List (ExecNode × GlobalState)) :
    runnerIdxs ((ExecNode.safety_guard, s) :: tr) = runnerIdxs tr := by
  simp [runnerIdxs]

theorem runnerIdxs_cons_eh (s : GlobalState) (tr : List (ExecNode × GlobalState)) :
    runnerIdxs ((ExecNode.error_handler, s) :: tr) = runnerIdxs tr := by
  simp [runnerIdxs]

theorem runnerIdxs_cons_tr (s : GlobalState) (tr : List (ExecNode × GlobalState)) :
    runnerIdxs ((ExecNode.terminal_runner, s) :: tr)
      = s.current_step_index :: runnerIdxs tr := by
  simp [runnerIdxs]

/-- Variant of `execRun_cons` with the spawn counter given explicitly. -/
theorem execRun_cons2 (exec : Nat → String → ProcOutcome) (f k k2 : Nat) (n : ExecNode)
    (s : GlobalState) (n' : ExecNode) (s' : GlobalState) (hn : n ≠ ExecNode.end_)
    (hk : k2 = if n = ExecNode.terminal_runner then k + 1 else k)
    (h : execStep (exec k) n s = Except.ok (n', s')) :
    execRun exec (f + 1) k n s =
      ((execRun exec f k2 n' s').1, (n, s) :: (execRun exec f k2 n' s').2) := by
  subst hk
  exact execRun_cons exec f k n s n' s' hn h

/-- Entering `step_parser` with the index at or past the end of the plan:
`step_parser` leaves the state unchanged, and the run dies with `IndexError`
inside `safety_guard` (the workflow has no conditional edge out of
`step_parser`). -/
theorem execRun_parse_ge (exec : Nat → String → ProcOutcome) (f k : Nat) (s : GlobalState)
    (hge : s.plan.length ≤ s.current_step_index) (hf : 2 ≤ f) :
    execRun exec f k ExecNode.parseStep s =
      (Outcome.errored PyError.indexError ExecNode.safety_guard s,
        [(ExecNode.parseStep, s), (ExecNode.safety_guard, s)]) := by
  obtain ⟨f2, rfl⟩ : ∃ f2, f = f2 + 2 := ⟨f - 2, by omega⟩
  rw [show f2 + 2 = (f2 + 1) + 1 from rfl,
    execRun_cons2 exec (f2 + 1) k k ExecNode.parseStep s ExecNode.safety_guard s (by simp)
      (by simp) (execStep_parse_ge (exec k) s hge),
    execRun_err exec f2 k ExecNode.safety_guard s PyError.indexError (by simp)
      (execStep_guard_ge (exec k) s hge)]

/-- Invariant bundle for a run of the Executor graph entered at `step_parser`:
with fuel `3·(len − idx) + 3` the run halts (normally, in `error_handler`, or
on a raised `IndexError` — it never loops); every visited state keeps
`current_step_index ≤ len(plan)` with the plan length constant; the indices on
which `terminal_runner` ran are strictly increasing (so no step runs twice);
and after every `terminal_runner` visit either the index has incremented or
the very next node is `error_handler`. -/
theorem execRun_from_parse (exec : Nat → String → ProcOutcome) :
    ∀ (m fuel k : Nat) (s : GlobalState),
      s.plan.length - s.current_step_index ≤ m →
      s.current_step_index ≤ s.plan.length →
      3 * (s.plan.length - s.current_step_index) + 3 ≤ fuel →
      ((execRun exec fuel k ExecNode.parseStep s).1.halts = true) ∧
      (∀ q ∈ (execRun exec fuel k ExecNode.parseStep s).2,
          q.2.current_step_index ≤ q.2.plan.length ∧ q.2.plan.length = s.plan.length) ∧
      List.Pairwise (fun a b => a < b)
        (runnerIdxs (execRun exec fuel k ExecNode.parseStep s).2) ∧
      (∀ j ∈ runnerIdxs (execRun exec fuel k ExecNode.parseStep s).2,
          s.current_step_index ≤ j) ∧
      List.Chain' stepRel (execRun exec fuel k ExecNode.parseStep s).2 ∧
      (execRun exec fuel k ExecNode.parseStep s).2.head? = some (ExecNode.parseStep, s) := by
  intro m
  induction m with
  | zero =>
      intro fuel k s hm hle hfuel
      have hge : s.plan.length ≤ s.current_step_index := by omega
      rw [execRun_parse_ge exec fuel k s hge (by omega)]
      refine ⟨rfl, ?_, ?_, ?_, ?_, rfl⟩
      · intro q hq
        simp only [List.mem_cons, List.not_mem_nil, or_false] at hq
        rcases hq with rfl | rfl <;> exact ⟨hle, rfl⟩
      · simp [runnerIdxs_cons, runnerIdxs_nil]
      · intro j hj
        simp [runnerIdxs_cons, runnerIdxs_nil] at hj
      · exact List.chain'_cons.mpr ⟨stepRel_of_ne (by simp), List.chain'_singleton _⟩
  | succ m ih =>
      intro fuel k s hm hle hfuel
      by_cases hlt : s.current_step_index < s.plan.length
      · obtain ⟨f3, rfl⟩ : ∃ f3, fuel = f3 + 3 := ⟨fuel - 3, by omega⟩
        have h1idx := markInProgress_idx s
        have h1len := markInProgress_plan_length s
        have h1lt : (markInProgress s).current_step_index < (markInProgress s).plan.length := by
          rw [h1idx, h1len]; exact hlt
        have hparse := execStep_parse_lt (exec k) s hlt
        have hpy1 : pyIndex (markInProgress s).plan (markInProgress s).current_step_index
            = Except.ok ((markInProgress s).plan[(markInProgress s).current_step_index]) :=
          pyIndex_ok _ _ h1lt
        rcases hcmd : ((markInProgress s).plan[(markInProgress s).current_step_index]).command
          with _ | c
        · -- present-but-null command: safety_guard raises TypeError and the run halts
          have hguard := execStep_guard_none (exec k) (markInProgress s) _ hpy1 hcmd
          rw [show f3 + 3 = (f3 + 2) + 1 from rfl,
            execRun_cons2 exec (f3 + 2) k k ExecNode.parseStep s ExecNode.safety_guard
              (markInProgress s) (by simp) (by simp) hparse,
            show f3 + 2 = (f3 + 1) + 1 from rfl,
            execRun_err exec (f3 + 1) k ExecNode.safety_guard (markInProgress s)
              PyError.typeError (by simp) hguard]
          refine ⟨rfl, ?_, ?_, ?_, ?_, rfl⟩
          · intro q hq
            simp only [List.mem_cons, List.not_mem_nil, or_false] at hq
            rcases hq with rfl | rfl
            · exact ⟨hle, rfl⟩
            · exact ⟨by rw [h1idx, h1len]; omega, h1len⟩
          · simp [runnerIdxs_cons, runnerIdxs_nil]
          · intro j hj
            simp [runnerIdxs_cons, runnerIdxs_nil] at hj
          · exact List.chain'_cons.mpr ⟨stepRel_of_ne (by simp), List.chain'_singleton _⟩
        have hguard := execStep_guard_some (exec k) (markInProgress s) _ c hpy1 hcmd
        rcases terminal_runner_shape (exec k) (markInProgress s) h1lt with
          ⟨p, hi, hplen, hu⟩ | ⟨p, hi, hplen, hfailed, hu⟩
        · -- advance shape
          have hs2idx : (advState (markInProgress s) p hi).current_step_index
              = s.current_step_index + 1 := by rw [advState_idx, h1idx]
          have hs2len : (advState (markInProgress s) p hi).plan.length = s.plan.length := by
            rw [advState_plan, hplen, h1len]
          rcases execStep_runner_of_adv (exec k) (markInProgress s) p hi hu with
            ⟨n2, hn2, heq⟩ | herr
          · have E1 : (execRun exec (f3 + 3) k ExecNode.parseStep s).1
                = (execRun exec f3 (k + 1) n2 (advState (markInProgress s) p hi)).1 := by
              rw [show f3 + 3 = (f3 + 2) + 1 from rfl,
                execRun_cons2 exec (f3 + 2) k k ExecNode.parseStep s ExecNode.safety_guard
                  (markInProgress s) (by simp) (by simp) hparse,
                show f3 + 2 = (f3 + 1) + 1 from rfl,
                execRun_cons2 exec (f3 + 1) k k ExecNode.safety_guard (markInProgress s)
                  ExecNode.terminal_runner (markInProgress s) (by simp) (by simp) hguard,
                execRun_cons2 exec f3 k (k + 1) ExecNode.terminal_runner (markInProgress s)
                  n2 (advState (markInProgress s) p hi) (by simp) (by simp) heq]
            have E2 : (execRun exec (f3 + 3) k ExecNode.parseStep s).2
                = (ExecNode.parseStep, s) :: (ExecNode.safety_guard, markInProgress s)
                    :: (ExecNode.terminal_runner, markInProgress s)
                    :: (execRun exec f3 (k + 1) n2 (advState (markInProgress s) p hi)).2 := by
              rw [show f3 + 3 = (f3 + 2) + 1 from rfl,
                execRun_cons2 exec (f3 + 2) k k ExecNode.parseStep s ExecNode.safety_guard
                  (markInProgress s) (by simp) (by simp) hparse,
                show f3 + 2 = (f3 + 1) + 1 from rfl,
                execRun_cons2 exec (f3 + 1) k k ExecNode.safety_guard (markInProgress s)
                  ExecNode.terminal_runner (markInProgress s) (by simp) (by simp) hguard,
                execRun_cons2 exec f3 k (k + 1) ExecNode.terminal_runner (markInProgress s)
                  n2 (advState (markInProgress s) p hi) (by simp) (by simp) heq]
            rcases hn2 with rfl | rfl
            · -- loop back to step_parser; apply the induction hypothesis
              obtain ⟨H1, H2, H3, H4, H5, H6⟩ :=
                ih f3 (k + 1) (advState (markInProgress s) p hi)
                  (by rw [hs2len, hs2idx]; omega)
                  (by rw [hs2len, hs2idx]; omega)
                  (by rw [hs2len, hs2idx]; omega)
              rw [E1, E2]
              refine ⟨H1, ?_, ?_, ?_, ?_, rfl⟩
              · intro q hq
                simp only [List.mem_cons] at hq
                rcases hq with rfl | rfl | rfl | hq
                · exact ⟨hle, rfl⟩
                · exact ⟨by rw [h1idx, h1len]; omega, h1len⟩
                · exact ⟨by rw [h1idx, h1len]; omega, h1len⟩
                · obtain ⟨hq1, hq2⟩ := H2 q hq
                  exact ⟨hq1, by rw [hq2, hs2len]⟩
              · rw [runnerIdxs_cons_ps, runnerIdxs_cons_sg, runnerIdxs_cons_tr, h1idx]
                refine List.pairwise_cons.mpr ⟨?_, H3⟩
                intro j hj
                have hj2 := H4 j hj
                rw [hs2idx] at hj2
                omega
              · intro j hj
                rw [runnerIdxs_cons_ps, runnerIdxs_cons_sg, runnerIdxs_cons_tr, h1idx] at hj
                rcases List.mem_cons.mp hj with rfl | hj
                · exact Nat.le_refl _
                · have hj2 := H4 j hj
                  rw [hs2idx] at hj2
                  omega
              · refine List.chain'_cons.mpr ⟨stepRel_of_ne (by simp), ?_⟩
                refine List.chain'_cons.mpr ⟨stepRel_of_ne (by simp), ?_⟩
                refine List.chain'_cons'.mpr ⟨?_, H5⟩
                intro y hy
                rw [H6] at hy
                simp only [Option.mem_def, Option.some.injEq] at hy
                subst hy
                intro _
                exact Or.inl (by rw [hs2idx, h1idx])
            · -- next step was already failed: error_handler, then END
              obtain ⟨f4, rfl⟩ : ∃ f4, f3 = f4 + 2 := ⟨f3 - 2, by omega⟩
              rw [execRun_eh exec f4 (k + 1) (advState (markInProgress s) p hi)] at E1 E2
              rw [E1, E2]
              refine ⟨rfl, ?_, ?_, ?_, ?_, rfl⟩
              · intro q hq
                simp only [List.mem_cons, List.not_mem_nil, or_false] at hq
                rcases hq with rfl | rfl | rfl | rfl
                · exact ⟨hle, rfl⟩
                · exact ⟨by rw [h1idx, h1len]; omega, h1len⟩
                · exact ⟨by rw [h1idx, h1len]; omega, h1len⟩
                · exact ⟨by rw [hs2idx, hs2len]; omega, by rw [hs2len]⟩
              · simp [runnerIdxs_cons, runnerIdxs_nil]
              · intro j hj
                rw [runnerIdxs_cons_ps, runnerIdxs_cons_sg, runnerIdxs_cons_tr,
                  runnerIdxs_cons_eh, runnerIdxs_nil, h1idx] at hj
                obtain rfl := List.mem_singleton.mp hj
                exact Nat.le_refl _
              · refine List.chain'_cons.mpr ⟨stepRel_of_ne (by simp), ?_⟩
                refine List.chain'_cons.mpr ⟨stepRel_of_ne (by simp), ?_⟩
                refine List.chain'_cons.mpr ⟨fun _ => Or.inr rfl, ?_⟩
                exact List.chain'_singleton _
          · -- conditional edge raised IndexError past the end of the plan
            have E : execRun exec (f3 + 3) k ExecNode.parseStep s
                = (Outcome.errored PyError.indexError ExecNode.terminal_runner
                    (markInProgress s),
                   [(ExecNode.parseStep, s), (ExecNode.safety_guard, markInProgress s),
                    (ExecNode.terminal_runner, markInProgress s)]) := by
              rw [show f3 + 3 = (f3 + 2) + 1 from rfl,
                execRun_cons2 exec (f3 + 2) k k ExecNode.parseStep s ExecNode.safety_guard
                  (markInProgress s) (by simp) (by simp) hparse,
                show f3 + 2 = (f3 + 1) + 1 from rfl,
                execRun_cons2 exec (f3 + 1) k k ExecNode.safety_guard (markInProgress s)
                  ExecNode.terminal_runner (markInProgress s) (by simp) (by simp) hguard,
                execRun_err exec f3 k ExecNode.terminal_runner (markInProgress s)
                  PyError.indexError (by simp) herr]
            rw [E]
            refine ⟨rfl, ?_, ?_, ?_, ?_, rfl⟩
            · intro q hq
              simp only [List.mem_cons, List.not_mem_nil, or_false] at hq
              rcases hq with rfl | rfl | rfl
              · exact ⟨hle, rfl⟩
              · exact ⟨by rw [h1idx, h1len]; omega, h1len⟩
              · exact ⟨by rw [h1idx, h1len]; omega, h1len⟩
            · simp [runnerIdxs_cons, runnerIdxs_nil]
            · intro j hj
              rw [runnerIdxs_cons_ps, runnerIdxs_cons_sg, runnerIdxs_cons_tr,
                runnerIdxs_nil, h1idx] at hj
              obtain rfl := List.mem_singleton.mp hj
              exact Nat.le_refl _
            · refine List.chain'_cons.mpr ⟨stepRel_of_ne (by simp), ?_⟩
              exact List.chain'_cons.mpr ⟨stepRel_of_ne (by simp), List.chain'_singleton _⟩
        · -- failure shape: error_handler, then END
          have heq := execStep_runner_of_fail (exec k) (markInProgress s) p hi hfailed hu
          have hs2idx : (failState (markInProgress s) p hi).current_step_index
              = s.current_step_index := by rw [failState_idx, h1idx]
          have hs2len : (failState (markInProgress s) p hi).plan.length = s.plan.length := by
            rw [failState_plan, hplen, h1len]
          obtain ⟨f4, rfl⟩ : ∃ f4, f3 = f4 + 2 := ⟨f3 - 2, by omega⟩
          have E : execRun exec (f4 + 2 + 3) k ExecNode.parseStep s
              = (Outcome.finished (ehState (failState (markInProgress s) p hi)),
                 [(ExecNode.parseStep, s), (ExecNode.safety_guard, markInProgress s),
                  (ExecNode.terminal_runner, markInProgress s),
                  (ExecNode.error_handler, failState (markInProgress s) p hi)]) := by
            rw [show f4 + 2 + 3 = (f4 + 2 + 2) + 1 from rfl,
              execRun_cons2 exec (f4 + 2 + 2) k k ExecNode.parseStep s ExecNode.safety_guard
                (markInProgress s) (by simp) (by simp) hparse,
              show f4 + 2 + 2 = (f4 + 2 + 1) + 1 from rfl,
              execRun_cons2 exec (f4 + 2 + 1) k k ExecNode.safety_guard (markInProgress s)
                ExecNode.terminal_runner (markInProgress s) (by simp) (by simp) hguard,
              show f4 + 2 + 1 = (f4 + 2) + 1 from rfl,
              execRun_cons2 exec (f4 + 2) k (k + 1) ExecNode.terminal_runner (markInProgress s)
                ExecNode.error_handler (failState (markInProgress s) p hi) (by simp) (by simp)
                heq,
              execRun_eh exec f4 (k + 1) (failState (markInProgress s) p hi)]
          rw [E]
          refine ⟨rfl, ?_, ?_, ?_, ?_, rfl⟩
          · intro q hq
            simp only [List.mem_cons, List.not_mem_nil, or_false] at hq
            rcases hq with rfl | rfl | rfl | rfl
            · exact ⟨hle, rfl⟩
            · exact ⟨by rw [h1idx, h1len]; omega, h1len⟩
            · exact ⟨by rw [h1idx, h1len]; omega, h1len⟩
            · exact ⟨by rw [hs2idx, hs2len]; omega, by rw [hs2len]⟩
          · simp [runnerIdxs_cons, runnerIdxs_nil]
          · intro j hj
            rw [runnerIdxs_cons_ps, runnerIdxs_cons_sg, runnerIdxs_cons_tr,
              runnerIdxs_cons_eh, runnerIdxs_nil, h1idx] at hj
            obtain rfl := List.mem_singleton.mp hj
            exact Nat.le_refl _
          · refine List.chain'_cons.mpr ⟨stepRel_of_ne (by simp), ?_⟩
            refine List.chain'_cons.mpr ⟨stepRel_of_ne (by simp), ?_⟩
            refine List.chain'_cons.mpr ⟨fun _ => Or.inr rfl, ?_⟩
            exact List.chain'_singleton _
      · -- index already at or past the end
        have hge : s.plan.length ≤ s.current_step_index := Nat.le_of_not_lt hlt
        rw [execRun_parse_ge exec fuel k s hge (by omega)]
        refine ⟨rfl, ?_, ?_, ?_, ?_, rfl⟩
        · intro q hq
          simp only [List.mem_cons, List.not_mem_nil, or_false] at hq
          rcases hq with rfl | rfl <;> exact ⟨hle, rfl⟩
        · simp [runnerIdxs_cons, runnerIdxs_nil]
        · intro j hj
          simp [runnerIdxs_cons, runnerIdxs_nil] at hj
        · exact List.chain'_cons.mpr ⟨stepRel_of_ne (by simp), List.chain'_singleton _⟩

/-! ### Concrete states used as witnesses and counterexamples -/

/-- A deterministic OS oracle on which every spawned command exits 0. -/
def execOk : Nat → String → ProcOutcome := fun _ _ => ProcOutcome.completed 0 "done" ""

/-- Single-spawn version of `execOk`. -/
def execOkStr : String → ProcOutcome := fun _ => ProcOutcome.completed 0 "done" ""

/-- A state whose plan is empty (e.g. after the planner failed to parse). -/
def emptyPlanState : GlobalState :=
  { messages := ["do nothing"], plan := [], current_step_index := 0, research_outputs := [],
    execution_history := [], user_validated := true, file_context := [] }

/-- A fresh one-step plan about to be executed. -/
def oneStepState : GlobalState :=
  { messages := ["run ls"],
    plan := [{ id := "1", description := "List files", command := some "ls -la",
               risk_level := "LOW", status := "pending", output := none }],
    current_step_index := 0, research_outputs := [], execution_history := [],
    user_validated := true, file_context := [] }

/-- The property bundle claimed for an Executor run over a non-empty plan:
the run halts within fuel `3·len + 3`; `current_step_index` never exceeds
`len(plan)` in any visited state; the step indices executed by
`terminal_runner` are strictly increasing (no step is executed twice); after
every executed step either the index strictly incremented or the next node is
`error_handler`; and locally, every `terminal_runner` success writes exactly
`idx + 1` while a failure writes no index and routes to `error_handler` in
the single following edge evaluation. -/
def ExecutorRunSpec (exec : Nat → String → ProcOutcome) (s : GlobalState) : Prop :=
  ((execRun exec (3 * s.plan.length + 3) 0 ExecNode.parseStep s).1.halts = true) ∧
  (∀ q ∈ (execRun exec (3 * s.plan.length + 3) 0 ExecNode.parseStep s).2,
      q.2.current_step_index ≤ q.2.plan.length) ∧
  List.Pairwise (fun a b => a < b)
    (runnerIdxs (execRun exec (3 * s.plan.length + 3) 0 ExecNode.parseStep s).2) ∧
  List.Chain' stepRel (execRun exec (3 * s.plan.length + 3) 0 ExecNode.parseStep s).2 ∧
  (∀ (e2 : String → ProcOutcome) (s2 : GlobalState) (u : StateUpdate),
      s2.current_step_index < s2.plan.length →
      terminal_runner e2 s2 = Except.ok u →
      (∀ j, u.current_step_index = some j → j = s2.current_step_index + 1) ∧
      (u.current_step_index = none →
        ∃ s3, execStep e2 ExecNode.terminal_runner s2
            = Except.ok (ExecNode.error_handler, s3)))

/-- C1: for every non-empty plan, a run of the Executor sub-workflow
terminates: `current_step_index` is bounded by `len(plan)`, every success
strictly increments it, every failure routes to `error_handler` within one
edge evaluation, and no step is ever executed twice.  (Halting includes the
abnormal exits: the uncaught `IndexError` of `check_execution_result` at the
end of a fully successful plan — see the empty-plan analysis — and the
`TypeError` `safety_guard` raises on a null command; no run ever loops.) -/
theorem C1_executor_terminates (exec : Nat → String → ProcOutcome) (s : GlobalState)
    (_hne : s.plan ≠ []) (h0 : s.current_step_index = 0) :
    ExecutorRunSpec exec s := by
  obtain ⟨H1, H2, H3, _, H5, _⟩ :=
    execRun_from_parse exec s.plan.length (3 * s.plan.length + 3) 0 s
      (by omega) (by omega) (by omega)
  refine ⟨H1, fun q hq => (H2 q hq).1, H3, H5, ?_⟩
  intro e2 s2 u hlt2 hu
  rcases terminal_runner_shape e2 s2 hlt2 with ⟨p, hi, hplen, hu2⟩ | ⟨p, hi, hplen, hfailed, hu2⟩
  · rw [hu] at hu2
    injection hu2 with h2
    subst h2
    constructor
    · intro j hj
      exact (Option.some.inj hj).symm
    · intro hnone
      exact absurd hnone (by simp)
  · rw [hu] at hu2
    injection hu2 with h2
    subst h2
    constructor
    · intro j hj
      exact absurd hj (by simp)
    · intro _
      exact ⟨failState s2 p hi, execStep_runner_of_fail e2 s2 p hi hfailed hu⟩

/-- Witness for C1 on a concrete one-step plan. -/
theorem C1_executor_terminates_witness :
    (oneStepState.plan ≠ [] ∧ oneStepState.current_step_index = 0) ∧
    ExecutorRunSpec execOk oneStepState :=
  ⟨⟨by decide, rfl⟩, C1_executor_terminates execOk oneStepState (by decide) rfl⟩

/-- C2: with `current_step_index ≥ len(plan)` (here the empty plan),
`step_parser` indeed leaves the state unchanged — but no conditional edge
ends the run: the graph proceeds to `safety_guard`, which reads `plan[idx]`
past the end of the plan and raises `IndexError`.  The spec's "handled by the
surrounding conditional edge" does not exist in `create_executor_graph`
(`check_step_completion` is defined but never wired). -/
theorem C2_past_end_crashes :
    parseStepNode emptyPlanState = Except.ok { current_step_index := some 0 } ∧
    applyUpdate emptyPlanState { current_step_index := some 0 } = emptyPlanState ∧
    execRun execOk 5 0 ExecNode.parseStep emptyPlanState
      = (Outcome.errored PyError.indexError ExecNode.safety_guard emptyPlanState,
         [(ExecNode.parseStep, emptyPlanState), (ExecNode.safety_guard, emptyPlanState)]) := by
  refine ⟨by decide, by decide, by decide⟩

/-- An OS oracle whose every spawned command exits 1 with some output. -/
def execFails : String → ProcOutcome := fun _ => ProcOutcome.completed 1 "boom" "err"

/-- C6: a step whose command runs and exits nonzero is marked `failed`, the
combined `stdout ++ "\n" ++ stderr` is stored on the step, a full history
record is appended, and `current_step_index` is left unchanged. -/
theorem C6_nonzero_exit (exec : String → ProcOutcome) (s : GlobalState)
    (st : PlanStep) (c : String)
    (hpy : pyIndex s.plan s.current_step_index = Except.ok st)
    (hc : st.command = some c) (hcne : c ≠ "")
    (_hspawn : (SafeSubprocess.run exec 60 c).spawned = true)
    (hrc : (SafeSubprocess.run exec 60 c).returncode ≠ 0) :
    ∃ u, terminal_runner exec s = Except.ok u ∧
      u.plan = some (s.plan.set s.current_step_index
        (stepFailed st
          ((SafeSubprocess.run exec 60 c).stdout ++ "\n" ++ (SafeSubprocess.run exec 60 c).stderr))) ∧
      u.execution_history = some (s.execution_history ++
        [{ step_id := some st.id, command := some c,
           return_code := some (SafeSubprocess.run exec 60 c).returncode,
           output := (SafeSubprocess.run exec 60 c).stdout ++ "\n"
             ++ (SafeSubprocess.run exec 60 c).stderr }]) ∧
      u.current_step_index = none ∧
      (applyUpdate s u).current_step_index = s.current_step_index := by
  have hgd : st.command.getD "" = c := by rw [hc]; rfl
  have hrun : terminal_runner exec s = Except.ok
      { plan := some (s.plan.set s.current_step_index
          (stepFailed st
            ((SafeSubprocess.run exec 60 c).stdout ++ "\n"
              ++ (SafeSubprocess.run exec 60 c).stderr))),
        execution_history := some (s.execution_history ++
          [{ step_id := some st.id, command := some c,
             return_code := some (SafeSubprocess.run exec 60 c).returncode,
             output := (SafeSubprocess.run exec 60 c).stdout ++ "\n"
               ++ (SafeSubprocess.run exec 60 c).stderr }]) } := by
    unfold terminal_runner
    rw [hpy]
    simp only [hgd, if_neg hcne, if_neg hrc]
  refine ⟨_, hrun, rfl, rfl, rfl, ?_⟩
  cases s
  simp [applyUpdate, Option.or]

/-- A state whose current step has the failing command `"false"`. -/
def failCmdState : GlobalState :=
  { messages := [],
    plan := [{ id := "1", description := "always fails", command := some "false",
               risk_level := "LOW", status := "in_progress", output := none }],
    current_step_index := 0, research_outputs := [], execution_history := [],
    user_validated := true, file_context := [] }

/-- Witness for C6 on a concrete failing command. -/
theorem C6_nonzero_exit_witness :
    (pyIndex failCmdState.plan failCmdState.current_step_index = Except.ok
        { id := "1", description := "always fails", command := some "false",
          risk_level := "LOW", status := "in_progress", output := none } ∧
      (SafeSubprocess.run execFails 60 "false").spawned = true ∧
      (SafeSubprocess.run execFails 60 "false").returncode ≠ 0) ∧
    (∃ u, terminal_runner execFails failCmdState = Except.ok u ∧
      u.plan = some (failCmdState.plan.set failCmdState.current_step_index
        (stepFailed
          { id := "1", description := "always fails", command := some "false",
            risk_level := "LOW", status := "in_progress", output := none }
          ((SafeSubprocess.run execFails 60 "false").stdout ++ "\n"
            ++ (SafeSubprocess.run execFails 60 "false").stderr))) ∧
      u.execution_history = some (failCmdState.execution_history ++
        [{ step_id := some "1", command := some "false",
           return_code := some (SafeSubprocess.run execFails 60 "false").returncode,
           output := (SafeSubprocess.run execFails 60 "false").stdout ++ "\n"
             ++ (SafeSubprocess.run execFails 60 "false").stderr }]) ∧
      u.current_step_index = none ∧
      (applyUpdate failCmdState u).current_step_index = failCmdState.current_step_index) :=
  ⟨⟨by decide, by decide, by decide⟩,
    C6_nonzero_exit execFails failCmdState _ "false" (by decide) rfl (by decide)
      (by decide) (by decide)⟩

/-- A state whose current step has no command (a thought/manual step). -/
def noCmdState : GlobalState :=
  { messages := [],
    plan := [{ id := "s1", description := "think about it", command := none,
               risk_level := "LOW", status := "in_progress", output := none }],
    current_step_index := 0, research_outputs := [], execution_history := [],
    user_validated := true, file_context := [] }

/-- C7 counterexample: for a null-command step the appended history record is
`{"command": None, "output": "Skipped (no command)"}`: it has no step id and
no exit code, and its output is the fixed skip text, not the step's output —
refuting the claim that every history record carries a step id and an exit
code. -/
theorem C7_counterexample :
    terminal_runner execFails noCmdState = Except.ok
      { plan := some [{ id := "s1", description := "think about it", command := none,
                        risk_level := "LOW", status := "done",
                        output := some "(No command executed)" }],
        current_step_index := some 1,
        execution_history := some [skippedHistoryItem] } ∧
    skippedHistoryItem.step_id = none ∧
    skippedHistoryItem.return_code = none ∧
    skippedHistoryItem.output = "Skipped (no command)" ∧
    skippedHistoryItem.output ≠ "(No command executed)" := by
  refine ⟨by decide, rfl, rfl, rfl, by decide⟩

/-- C7 amended: a null-command step is marked `done` with the fixed output
`"(No command executed)"`, the index advances by one, and the appended
history record carries only a null command and the text
`"Skipped (no command)"` — no step id and no exit code. -/
theorem C7_null_command (exec : String → ProcOutcome) (s : GlobalState) (st : PlanStep)
    (hpy : pyIndex s.plan s.current_step_index = Except.ok st)
    (hc : st.command = none) :
    terminal_runner exec s = Except.ok
      { plan := some (s.plan.set s.current_step_index (stepDone st "(No command executed)")),
        current_step_index := some (s.current_step_index + 1),
        execution_history := some (s.execution_history ++ [skippedHistoryItem]) } ∧
    skippedHistoryItem.step_id = none ∧
    skippedHistoryItem.command = none ∧
    skippedHistoryItem.return_code = none := by
  refine ⟨?_, rfl, rfl, rfl⟩
  unfold terminal_runner
  rw [hpy]
  simp [hc]

/-- Witness for the amended C7 on a concrete no-command step. -/
theorem C7_null_command_witness :
    (pyIndex noCmdState.plan noCmdState.current_step_index = Except.ok
        { id := "s1", description := "think about it", command := none,
          risk_level := "LOW", status := "in_progress", output := none }) ∧
    (terminal_runner execOkStr noCmdState = Except.ok
      { plan := some (noCmdState.plan.set noCmdState.current_step_index
          (stepDone
            { id := "s1", description := "think about it", command := none,
              risk_level := "LOW", status := "in_progress", output := none }
            "(No command executed)")),
        current_step_index := some (noCmdState.current_step_index + 1),
        execution_history := some (noCmdState.execution_history ++ [skippedHistoryItem]) } ∧
      skippedHistoryItem.step_id = none ∧
      skippedHistoryItem.command = none ∧
      skippedHistoryItem.return_code = none) :=
  ⟨by decide, C7_null_command execOkStr noCmdState _ (by decide) rfl⟩

/-- C8: a command containing a denylisted catastrophic substring (in any
casing/whitespace dressing: the test is on the lowercased text and is a plain
substring test) makes `SafeSubprocess.run` return immediately with exit code
`-1` and the security-block message, and no process is spawned. -/
theorem C8_denylist_blocks (exec : String → ProcOutcome) (t : Nat) (command p : String)
    (hp : p ∈ forbidden_patterns) (hc : strContains (pyLower command) p = true) :
    SafeSubprocess.run exec t command =
      { returncode := -1, stdout := "",
        stderr := "CRITICAL SECURITY: Command blocked by SafeSubprocess: " ++ command,
        spawned := false } := by
  have hsome : (forbidden_patterns.find? (fun pat => strContains (pyLower command) pat)).isSome := by
    rw [List.find?_isSome]
    exact ⟨p, hp, hc⟩
  obtain ⟨q, hq⟩ := Option.isSome_iff_exists.mp hsome
  unfold SafeSubprocess.run
  rw [hq]

/-- Witness for C8: upper-cased, whitespace-padded recursive root deletion. -/
theorem C8_denylist_blocks_witness :
    ("rm -rf /" ∈ forbidden_patterns ∧
      strContains (pyLower "  RM -RF /  ") "rm -rf /" = true) ∧
    SafeSubprocess.run (fun _ => ProcOutcome.completed 0 "ok" "") 60 "  RM -RF /  " =
      { returncode := -1, stdout := "",
        stderr := "CRITICAL SECURITY: Command blocked by SafeSubprocess: " ++ "  RM -RF /  ",
        spawned := false } :=
  ⟨⟨by decide, by decide⟩,
    C8_denylist_blocks (fun _ => ProcOutcome.completed 0 "ok" "") 60 "  RM -RF /  "
      "rm -rf /" (by decide) (by decide)⟩

/-- C9: when the spawned process exceeds the timeout, `SafeSubprocess.run`
returns (without raising) exit code 124, the partial output recovered after
the kill, and a message noting the timeout. -/
theorem C9_timeout (exec : String → ProcOutcome) (t : Nat) (command : String)
    (outs errs : Option String)
    (hsafe : ∀ p ∈ forbidden_patterns, strContains (pyLower command) p = false)
    (hex : exec command = ProcOutcome.timedOut outs errs) :
    SafeSubprocess.run exec t command =
      { returncode := 124, stdout := outs.getD "",
        stderr := "Command timed out after " ++ toString t ++ "s. " ++ errs.getD "",
        spawned := true } := by
  have hnone : forbidden_patterns.find? (fun pat => strContains (pyLower command) pat) = none := by
    rw [List.find?_eq_none]
    intro p hp
    simp [hsafe p hp]
  unfold SafeSubprocess.run
  rw [hnone, hex]

/-- Witness for C9: a slow command with partial stdout captured. -/
theorem C9_timeout_witness :
    ((∀ p ∈ forbidden_patterns, strContains (pyLower "sleep 999") p = false) ∧
      (fun c => if c = "sleep 999" then ProcOutcome.timedOut (some "partial") none
                else ProcOutcome.completed 0 "" "") "sleep 999"
        = ProcOutcome.timedOut (some "partial") none) ∧
    SafeSubprocess.run
        (fun c => if c = "sleep 999" then ProcOutcome.timedOut (some "partial") none
                  else ProcOutcome.completed 0 "" "") 60 "sleep 999" =
      { returncode := 124, stdout := (some "partial").getD "",
        stderr := "Command timed out after " ++ toString 60 ++ "s. "
          ++ (none : Option String).getD "",
        spawned := true } :=
  ⟨⟨by decide, by simp⟩,
    C9_timeout
      (fun c => if c = "sleep 999" then ProcOutcome.timedOut (some "partial") none
                else ProcOutcome.completed 0 "" "") 60 "sleep 999" (some "partial") none
      (by decide) (by simp)⟩

/-- C10 counterexample: on two concrete states `safety_guard` produces no
update at all, refuting "for every state the update leaves every field
unchanged and control proceeds to `terminal_runner`": with an empty plan it
raises `IndexError` reading `plan[0]`, and on an in-range step whose
`command` is null (`noCmdState`) it raises `TypeError` evaluating
`"rm -rf /" in None`. -/
theorem C10_counterexample :
    safety_guard emptyPlanState = Except.error PyError.indexError ∧
    safety_guard noCmdState = Except.error PyError.typeError := by
  exact ⟨by decide, by decide⟩

/-- C10 amended: for every state whose index is within the plan and whose
current step's `command` is a (possibly empty) string, the `safety_guard`
transition leaves the state exactly unchanged and control proceeds
unconditionally to `terminal_runner` — even when the command contains
`"rm -rf /"` or `user_validated` is false.  (Out of range it raises
`IndexError`; on a null command it raises `TypeError` — see the
counterexample.) -/
theorem C10_guard_frame (e : String → ProcOutcome) (s : GlobalState)
    (st : PlanStep) (c : String)
    (hpy : pyIndex s.plan s.current_step_index = Except.ok st)
    (hc : st.command = some c) :
    execStep e ExecNode.safety_guard s = Except.ok (ExecNode.terminal_runner, s) :=
  execStep_guard_some e s st c hpy hc

/-- A non-validated state whose current command contains `"rm -rf /"`. -/
def rmrfState : GlobalState :=
  { messages := [],
    plan := [{ id := "1", description := "wipe", command := some "rm -rf / --no-preserve-root",
               risk_level := "CRITICAL", status := "in_progress", output := none }],
    current_step_index := 0, research_outputs := [], execution_history := [],
    user_validated := false, file_context := [] }

/-- Witness for the amended C10: the guard does not short-circuit even on a
recursive root deletion with `user_validated = false`. -/
theorem C10_guard_frame_witness :
    (pyIndex rmrfState.plan rmrfState.current_step_index = Except.ok
        { id := "1", description := "wipe", command := some "rm -rf / --no-preserve-root",
          risk_level := "CRITICAL", status := "in_progress", output := none } ∧
      rmrfState.user_validated = false) ∧
    execStep execOkStr ExecNode.safety_guard rmrfState
      = Except.ok (ExecNode.terminal_runner, rmrfState) :=
  ⟨⟨by decide, rfl⟩,
    C10_guard_frame execOkStr rmrfState
      { id := "1", description := "wipe", command := some "rm -rf / --no-preserve-root",
        risk_level := "CRITICAL", status := "in_progress", output := none }
      "rm -rf / --no-preserve-root" (by decide) rfl⟩

/-! ## `src/graphs/researcher.py` -/

/-- The nodes of the Researcher sub-workflow. -/
inductive ResNode where
  | search_engine
  | grader
  | drafter
  | end_
deriving Repr, DecidableEq

/-- Environment oracles for the Researcher: the query-extraction LLM call,
the web-search tool (indexed by the number of previous searches), the grader
LLM (indexed by the number of previous gradings), and the drafter LLM. -/
structure ResOracles where
  extractQuery : String → String
  searchRes : Nat → String → String
  grade : Nat → String
  draft : String → String

/-- The query used by `search_engine`: the last message verbatim, or the
LLM extraction when it is over 100 characters. -/
def searchQuery (o : ResOracles) (last : String) : String :=
  if last.length > 100 then o.extractQuery last else last

/-- The `"Query: …\nResult: …"` entry that `search_engine` appends. -/
def searchEntry (o : ResOracles) (k : Nat) (last : String) : String :=
  "Query: " ++ searchQuery o last ++ "\nResult: " ++ o.searchRes k (searchQuery o last)

/-- The `search_engine` node: takes the last message as the query (asking
the LLM to shorten it when over 100 characters), runs the search tool, and
appends a `"Query: …\nResult: …"` entry to `research_outputs`. -/
def search_engine (o : ResOracles) (k : Nat) (s : GlobalState) : Except PyError StateUpdate :=
  match pyLast s.messages with
  | Except.error e => Except.error e
  | Except.ok last =>
      Except.ok { research_outputs := some (s.research_outputs ++ [searchEntry o k last]) }

/-- The `grader` node: reads `research_outputs[-1]` and `messages[0]`
(raising `IndexError` when either list is empty), asks the LLM, and stores
the stripped upper-cased decision under the `"_grader_decision"` key. -/
def grader (o : ResOracles) (k : Nat) (s : GlobalState) : Except PyError StateUpdate :=
  match pyLast s.research_outputs with
  | Except.error e => Except.error e
  | Except.ok _research =>
      match pyFirst s.messages with
      | Except.error e => Except.error e
      | Except.ok _orig =>
          Except.ok { grader_decision := some (pyUpper (pyStrip (o.grade k))) }

/-- The `drafter` node: synthesises the answer from the joined research and
the last message, and appends the LLM response to `messages`. -/
def drafter (o : ResOracles) (s : GlobalState) : Except PyError StateUpdate :=
  match pyLast s.messages with
  | Except.error e => Except.error e
  | Except.ok last => Except.ok { messages := [o.draft last] }

/-- The `check_grade` conditional edge:
`decision = state.get("_grader_decision", "NO")` — but `"_grader_decision"`
is not a schema channel, so the grader's write never lands and the default
`"NO"` is always read; then retry `search_engine` only while
`len(research_outputs) < 2`, else give up and go to `drafter`. -/
def check_grade (s : GlobalState) : ResNode :=
  let decision := pyGetNonSchema "NO"
  let attempts := s.research_outputs.length
  if strContains decision "YES" then ResNode.drafter
  else if attempts ≥ 2 then ResNode.drafter
  else ResNode.search_engine

/-- One transition of the compiled Researcher graph
(`search_engine → grader`, `grader → check_grade`, `drafter → END`).
`ks`/`kg` count previous `search_engine`/`grader` visits for the oracles. -/
def resStep (o : ResOracles) (ks kg : Nat) (n : ResNode) (s : GlobalState) :
    Except PyError (ResNode × GlobalState) :=
  match n with
  | ResNode.search_engine =>
      (search_engine o ks s).map (fun u => (ResNode.grader, applyUpdate s u))
  | ResNode.grader =>
      match grader o kg s with
      | Except.error e => Except.error e
      | Except.ok u =>
          let s' := applyUpdate s u
          Except.ok (check_grade s', s')
  | ResNode.drafter =>
      (drafter o s).map (fun u => (ResNode.end_, applyUpdate s u))
  | ResNode.end_ => Except.ok (ResNode.end_, s)

/-- Fuel-based interpreter of the Researcher graph, returning the outcome and
the trace of visited nodes. -/
def resRun (o : ResOracles) :
    Nat → Nat → Nat → ResNode → GlobalState → Outcome ResNode × List ResNode
  | 0, _, _, n, s => (Outcome.outOfFuel n s, [])
  | fuel + 1, ks, kg, n, s =>
      if n = ResNode.end_ then
        (Outcome.finished s, [])
      else
        match resStep o ks kg n s with
        | Except.error e => (Outcome.errored e n s, [n])
        | Except.ok (n', s') =>
            let ks' := if n = ResNode.search_engine then ks + 1 else ks
            let kg' := if n = ResNode.grader then kg + 1 else kg
            let r := resRun o fuel ks' kg' n' s'
            (r.1, n :: r.2)

/-- Number of `search_engine` visits in a Researcher trace. -/
def searchCount (tr : List ResNode) : Nat :=
  (tr.filter (fun n => decide (n = ResNode.search_engine))).length

/-! ### Researcher transition lemmas -/

theorem pyLast_ok {α : Type} (l : List α) (h : l ≠ []) : ∃ a, pyLast l = Except.ok a := by
  have hlen : 0 < l.length := List.length_pos.mpr h
  exact ⟨_, pyIndex_ok l (l.length - 1) (by omega)⟩

theorem pyFirst_ok {α : Type} (l : List α) (h : l ≠ []) : ∃ a, pyFirst l = Except.ok a := by
  have hlen : 0 < l.length := List.length_pos.mpr h
  exact ⟨_, pyIndex_ok l 0 hlen⟩

theorem applyUpdate_research (s : GlobalState) (r : List String) :
    applyUpdate s { research_outputs := some r } = { s with research_outputs := r } := by
  cases s
  simp [applyUpdate]

/-- The grader's `{"_grader_decision": …}` write targets a non-schema key and
is dropped: the state is unchanged. -/
theorem applyUpdate_decision (s : GlobalState) (d : String) :
    applyUpdate s { grader_decision := some d } = s := by
  cases s
  simp [applyUpdate]

theorem resStep_search (o : ResOracles) (ks kg : Nat) (s : GlobalState) (last : String)
    (hlast : pyLast s.messages = Except.ok last) :
    resStep o ks kg ResNode.search_engine s = Except.ok
      (ResNode.grader,
        { s with research_outputs := s.research_outputs ++ [searchEntry o ks last] }) := by
  simp [resStep, search_engine, hlast, Except.map, applyUpdate_research]

theorem resStep_grader (o : ResOracles) (ks kg : Nat) (s : GlobalState) (x y : String)
    (hres : pyLast s.research_outputs = Except.ok x)
    (hmsg : pyFirst s.messages = Except.ok y) :
    resStep o ks kg ResNode.grader s = Except.ok (check_grade s, s) := by
  simp [resStep, grader, hres, hmsg, applyUpdate_decision]

theorem resStep_drafter (o : ResOracles) (ks kg : Nat) (s : GlobalState) (last : String)
    (hlast : pyLast s.messages = Except.ok last) :
    resStep o ks kg ResNode.drafter s = Except.ok
      (ResNode.end_, { s with messages := s.messages ++ [o.draft last] }) := by
  simp [resStep, drafter, hlast, Except.map, applyUpdate_msgs]

theorem resRun_end (o : ResOracles) (f ks kg : Nat) (s : GlobalState) :
    resRun o (f + 1) ks kg ResNode.end_ s = (Outcome.finished s, []) := by
  simp [resRun]

theorem resRun_cons (o : ResOracles) (f ks kg ks2 kg2 : Nat) (n : ResNode) (s : GlobalState)
    (n' : ResNode) (s' : GlobalState) (hn : n ≠ ResNode.end_)
    (hks : ks2 = if n = ResNode.search_engine then ks + 1 else ks)
    (hkg : kg2 = if n = ResNode.grader then kg + 1 else kg)
    (h : resStep o ks kg n s = Except.ok (n', s')) :
    resRun o (f + 1) ks kg n s =
      ((resRun o f ks2 kg2 n' s').1, n :: (resRun o f ks2 kg2 n' s').2) := by
  subst hks hkg
  simp [resRun, hn, h]

/-- C4 (amended bound): a Researcher run started with empty
`research_outputs` visits `search_engine` at most 2 times before `drafter`
runs — `check_grade` counts `len(research_outputs)`, which is already 1 after
the initial search, so `attempts >= 2` cuts the loop after a single retry —
and exactly 2 times when no grader decision ever contains `"YES"`.  (In fact
the grader's `"_grader_decision"` write is dropped as a non-schema key, so
`check_grade` always reads the default `"NO"` and the run makes exactly 2
searches unconditionally; the stated bound holds a fortiori under either
semantics.) -/
theorem C4_search_bound (o : ResOracles) (s : GlobalState) (f : Nat)
    (hres : s.research_outputs = []) (hmsg : s.messages ≠ []) (hf : 6 ≤ f) :
    ((resRun o f 0 0 ResNode.search_engine s).1.halts = true) ∧
    searchCount (resRun o f 0 0 ResNode.search_engine s).2 ≤ 2 ∧
    ((∀ k, strContains (pyUpper (pyStrip (o.grade k))) "YES" = false) →
      searchCount (resRun o f 0 0 ResNode.search_engine s).2 = 2 ∧
      ResNode.drafter ∈ (resRun o f 0 0 ResNode.search_engine s).2) := by
  obtain ⟨fx, rfl⟩ : ∃ fx, f = fx + 6 := ⟨f - 6, by omega⟩
  obtain ⟨last, hlast⟩ := pyLast_ok s.messages hmsg
  obtain ⟨y, hy⟩ := pyFirst_ok s.messages hmsg
  have hNoYes : strContains "NO" "YES" = false := by decide
  set s1 : GlobalState :=
    { s with research_outputs := s.research_outputs ++ [searchEntry o 0 last] } with hs1
  set s3 : GlobalState :=
    { s1 with research_outputs := s1.research_outputs ++ [searchEntry o 1 last] } with hs3
  have hro1 : s1.research_outputs = [searchEntry o 0 last] := by
    rw [hs1]
    simp [hres]
  have hres1 : pyLast s1.research_outputs = Except.ok (searchEntry o 0 last) := by
    rw [hro1]
    exact pyIndex_ok _ 0 (by simp)
  have hmsg1 : pyFirst s1.messages = Except.ok y := hy
  have hlast1 : pyLast s1.messages = Except.ok last := hlast
  have hro3 : s3.research_outputs = [searchEntry o 0 last, searchEntry o 1 last] := by
    rw [hs3]
    simp [hro1, hres]
  have hres3 : pyLast s3.research_outputs = Except.ok (searchEntry o 1 last) := by
    rw [hro3]
    exact pyIndex_ok _ 1 (by simp)
  have hmsg3 : pyFirst s3.messages = Except.ok y := hy
  have hlast3 : pyLast s3.messages = Except.ok last := hlast
  have hstep1 : resStep o 0 0 ResNode.search_engine s = Except.ok (ResNode.grader, s1) :=
    resStep_search o 0 0 s last hlast
  have hstep2 : resStep o 1 0 ResNode.grader s1 = Except.ok (check_grade s1, s1) :=
    resStep_grader o 1 0 s1 (searchEntry o 0 last) y hres1 hmsg1
  have hcg1 : check_grade s1 = ResNode.search_engine := by
    simp [check_grade, pyGetNonSchema, hNoYes, hro1, hres]
  rw [hcg1] at hstep2
  have hstep3 : resStep o 1 1 ResNode.search_engine s1 = Except.ok (ResNode.grader, s3) :=
    resStep_search o 1 1 s1 last hlast1
  have hstep4 : resStep o 2 1 ResNode.grader s3 = Except.ok (check_grade s3, s3) :=
    resStep_grader o 2 1 s3 (searchEntry o 1 last) y hres3 hmsg3
  have hcg3 : check_grade s3 = ResNode.drafter := by
    simp [check_grade, pyGetNonSchema, hNoYes, hro3, hro1, hres]
  rw [hcg3] at hstep4
  rw [show fx + 6 = (fx + 5) + 1 from rfl,
    resRun_cons o (fx + 5) 0 0 1 0 ResNode.search_engine s ResNode.grader s1
      (by simp) (by simp) (by simp) hstep1,
    show fx + 5 = (fx + 4) + 1 from rfl,
    resRun_cons o (fx + 4) 1 0 1 1 ResNode.grader s1 ResNode.search_engine s1
      (by simp) (by simp) (by simp) hstep2,
    show fx + 4 = (fx + 3) + 1 from rfl,
    resRun_cons o (fx + 3) 1 1 2 1 ResNode.search_engine s1 ResNode.grader s3
      (by simp) (by simp) (by simp) hstep3,
    show fx + 3 = (fx + 2) + 1 from rfl,
    resRun_cons o (fx + 2) 2 1 2 2 ResNode.grader s3 ResNode.drafter s3
      (by simp) (by simp) (by simp) hstep4,
    show fx + 2 = (fx + 1) + 1 from rfl,
    resRun_cons o (fx + 1) 2 2 2 2 ResNode.drafter s3 ResNode.end_
      ({ s3 with messages := s3.messages ++ [o.draft last] })
      (by simp) (by simp) (by simp) (resStep_drafter o 2 2 s3 last hlast3),
    resRun_end]
  exact ⟨rfl, by simp [searchCount], fun _ => ⟨by simp [searchCount], by simp⟩⟩

/-- Concrete Researcher oracles whose grader always answers `"NO"`. -/
def resNoOracles : ResOracles :=
  { extractQuery := fun q => q, searchRes := fun _ _ => "nothing found",
    grade := fun _ => "NO", draft := fun _ => "best effort answer" }

/-- A fresh Researcher entry state. -/
def resStartState : GlobalState :=
  { messages := ["find cats"], plan := [], current_step_index := 0, research_outputs := [],
    execution_history := [], user_validated := false, file_context := [] }

/-- C4 counterexample: with a grader that never answers affirmatively,
`search_engine` is visited exactly 2 times — not the claimed 3 — before the
run reaches `drafter` and finishes. -/
theorem C4_counterexample :
    searchCount (resRun resNoOracles 10 0 0 ResNode.search_engine resStartState).2 = 2 ∧
    ¬ searchCount (resRun resNoOracles 10 0 0 ResNode.search_engine resStartState).2 = 3 ∧
    (resRun resNoOracles 10 0 0 ResNode.search_engine resStartState).1.halts = true ∧
    ResNode.drafter ∈ (resRun resNoOracles 10 0 0 ResNode.search_engine resStartState).2 := by
  refine ⟨by decide, by decide, by decide, by decide⟩

/-- Witness for the amended C4 at the concrete always-negative oracles. -/
theorem C4_search_bound_witness :
    (resStartState.research_outputs = [] ∧ resStartState.messages ≠ [] ∧ 6 ≤ 10) ∧
    (((resRun resNoOracles 10 0 0 ResNode.search_engine resStartState).1.halts = true) ∧
      searchCount (resRun resNoOracles 10 0 0 ResNode.search_engine resStartState).2 ≤ 2 ∧
      ((∀ k, strContains (pyUpper (pyStrip (resNoOracles.grade k))) "YES" = false) →
        searchCount (resRun resNoOracles 10 0 0 ResNode.search_engine resStartState).2 = 2 ∧
        ResNode.drafter ∈ (resRun resNoOracles 10 0 0 ResNode.search_engine resStartState).2)) :=
  ⟨⟨rfl, by decide, by decide⟩,
    C4_search_bound resNoOracles resStartState 10 rfl (by decide) (by decide)⟩

/-! ## `src/graphs/planner.py` -/

/-- A step as it appears in the parsed JSON plan: the planner prompt requires
`id`, `description`, `command` and `risk_level`, and `status` may be absent
(the code defaults it).  A completion that does not decode to this shape is a
parse failure (every exception inside the `try` lands in the `except`). -/
structure RawStep where
  id : String
  description : String
  command : Option String
  risk_level : String
  status : Option String
deriving Repr, DecidableEq

/-- Python `if "status" not in step: step["status"] = "pending"`, then read as a
`PlanStep` (no `output` key yet). -/
def ensure_status (r : RawStep) : PlanStep :=
  { id := r.id, description := r.description, command := r.command,
    risk_level := r.risk_level, status := r.status.getD "pending", output := none }

/-- The markdown clean-up applied to the completion before `json.loads`. -/
def pyClean (c : String) : String :=
  ((c.replace "```json" "").replace "```" "").trim

/-- The `draft_plan` node, parameterised by the completion text `content`
and by `parse`, the oracle standing for `json.loads` plus the
status-defaulting loop (anything either raises is the `Except.error` case).
Success installs the plan, resets the index and clears `user_validated`; the
`except` branch returns an empty plan and a diagnostic message only. -/
def draft_plan (parse : String → Except String (List RawStep)) (content : String) :
    StateUpdate :=
  match parse (pyClean content) with
  | Except.ok plan_data =>
      { plan := some (plan_data.map ensure_status), current_step_index := some 0,
        user_validated := some false }
  | Except.error e =>
      { plan := some [], messages := ["Error generating plan: " ++ e] }

/-- C3 (amended): when the completion fails to parse, the turn does not
crash — `draft_plan` still returns an update — the plan becomes empty and a
diagnostic message is appended, but `user_validated` (and every other
channel) is left unchanged rather than reset to false. -/
theorem C3_parse_failure (parse : String → Except String (List RawStep))
    (content : String) (s : GlobalState) (e : String)
    (hp : parse (pyClean content) = Except.error e) :
    draft_plan parse content
      = { plan := some [], messages := ["Error generating plan: " ++ e] } ∧
    (applyUpdate s (draft_plan parse content)).plan = [] ∧
    (applyUpdate s (draft_plan parse content)).messages
      = s.messages ++ ["Error generating plan: " ++ e] ∧
    (applyUpdate s (draft_plan parse content)).user_validated = s.user_validated ∧
    (applyUpdate s (draft_plan parse content)).current_step_index = s.current_step_index := by
  have hd : draft_plan parse content
      = { plan := some [], messages := ["Error generating plan: " ++ e] } := by
    simp [draft_plan, hp]
  refine ⟨hd, ?_, ?_, ?_, ?_⟩ <;> rw [hd] <;> cases s <;> simp [applyUpdate, Option.or]

/-- A parse oracle that always fails (malformed JSON). -/
def parse_fail : String → Except String (List RawStep) :=
  fun _ => Except.error "Expecting value"

/-- A state in which the user had already validated a previous plan. -/
def validatedState : GlobalState :=
  { messages := ["please deploy"],
    plan := [{ id := "old", description := "previous step", command := some "ls",
               risk_level := "LOW", status := "done", output := none }],
    current_step_index := 1, research_outputs := [], execution_history := [],
    user_validated := true, file_context := [] }

/-- C3 counterexample: after a parse failure the plan is emptied and the
diagnostic appended, but `user_validated` remains `true` — the claimed reset
to false does not happen (the `except` branch never writes that channel). -/
theorem C3_counterexample :
    (applyUpdate validatedState (draft_plan parse_fail "not json")).plan = [] ∧
    (applyUpdate validatedState (draft_plan parse_fail "not json")).messages
      = ["please deploy", "Error generating plan: Expecting value"] ∧
    (applyUpdate validatedState (draft_plan parse_fail "not json")).user_validated = true ∧
    ¬ (applyUpdate validatedState (draft_plan parse_fail "not json")).user_validated = false := by
  refine ⟨by decide, by decide, by decide, by decide⟩

/-- Witness for the amended C3 at the concrete failing parse. -/
theorem C3_parse_failure_witness :
    parse_fail (pyClean "not json") = Except.error "Expecting value" ∧
    (draft_plan parse_fail "not json"
      = { plan := some [], messages := ["Error generating plan: " ++ "Expecting value"] } ∧
    (applyUpdate validatedState (draft_plan parse_fail "not json")).plan = [] ∧
    (applyUpdate validatedState (draft_plan parse_fail "not json")).messages
      = validatedState.messages ++ ["Error generating plan: " ++ "Expecting value"] ∧
    (applyUpdate validatedState (draft_plan parse_fail "not json")).user_validated
      = validatedState.user_validated ∧
    (applyUpdate validatedState (draft_plan parse_fail "not json")).current_step_index
      = validatedState.current_step_index) :=
  ⟨rfl, C3_parse_failure parse_fail "not json" validatedState "Expecting value" rfl⟩

/-! ## `src/graphs/main.py` and the CLI turn (`src/cli/main.py`) -/

/-- The nodes of the main graph (sub-workflows appear as single nodes). -/
inductive MainNode where
  | router
  | chat_node
  | planner
  | executor
  | researcher
  | end_
deriving Repr, DecidableEq

/-- Environment oracles for one main-graph turn. -/
structure MainOracles where
  routeCategory : String
  plannerContent : String
  parse : String → Except String (List RawStep)
  exec : Nat → String → ProcOutcome
  res : ResOracles
  chatReply : String

/-- The `router` node: classifies the last message (via the LLM category
text) and stores `"planner"` / `"researcher"` / `"chat"` under the
`"_route_target"` key. -/
def router (category : String) (s : GlobalState) : Except PyError StateUpdate :=
  match pyLast s.messages with
  | Except.error e => Except.error e
  | Except.ok _last =>
      let cat := pyUpper (pyStrip category)
      let target :=
        if strContains cat "EXECUTE" then "planner"
        else if strContains cat "RESEARCH" then "researcher"
        else "chat"
      Except.ok { route_target := some target }

/-- The `route_request` conditional-edge function:
`state.get("_route_target", "chat_node")`.  `"_route_target"` is not a
schema channel, so the router's write never lands and the default
`"chat_node"` is always returned — the planner/researcher paths are
unreachable from the router. -/
def route_request (_s : GlobalState) : String :=
  pyGetNonSchema "chat_node"

/-- The path map of `add_conditional_edges` on `router`: only the keys
`"planner"`, `"researcher"`, `"chat_node"` exist. -/
def routeLookup (t : String) : Except PyError MainNode :=
  if t = "planner" then Except.ok MainNode.planner
  else if t = "researcher" then Except.ok MainNode.researcher
  else if t = "chat_node" then Except.ok MainNode.chat_node
  else Except.error PyError.keyError

/-- One transition of the main graph: `router` routes via `route_request`
(which, the `"_route_target"` write being dropped, always yields
`chat_node`); `planner` (the sub-graph's single `draft_plan → END` pass)
flows unconditionally to `executor`; `executor`, `researcher` and
`chat_node` end the turn.  The planner/executor/researcher branches are the
graph's wiring as written, even though no turn entered at `router` can reach
them. -/
def mainStep (o : MainOracles) (n : MainNode) (s : GlobalState) :
    Except PyError (MainNode × GlobalState) :=
  match n with
  | MainNode.router =>
      match router o.routeCategory s with
      | Except.error e => Except.error e
      | Except.ok u =>
          match routeLookup (route_request (applyUpdate s u)) with
          | Except.error e => Except.error e
          | Except.ok nxt => Except.ok (nxt, applyUpdate s u)
  | MainNode.planner =>
      Except.ok (MainNode.executor, applyUpdate s (draft_plan o.parse o.plannerContent))
  | MainNode.executor =>
      match execRun o.exec (3 * s.plan.length + 3) 0 ExecNode.parseStep s with
      | (Outcome.finished s', _) => Except.ok (MainNode.end_, s')
      | (Outcome.errored e _ _, _) => Except.error e
      | (Outcome.outOfFuel _ _, _) => Except.error PyError.fuelError
  | MainNode.researcher =>
      match resRun o.res 8 0 0 ResNode.search_engine s with
      | (Outcome.finished s', _) => Except.ok (MainNode.end_, s')
      | (Outcome.errored e _ _, _) => Except.error e
      | (Outcome.outOfFuel _ _, _) => Except.error PyError.fuelError
  | MainNode.chat_node =>
      Except.ok (MainNode.end_, applyUpdate s { messages := [o.chatReply] })
  | MainNode.end_ => Except.ok (MainNode.end_, s)

/-- The CLI's `workflow.compile(..., interrupt_before=["executor"])` interrupt list. -/
def interrupt_before : List MainNode := [MainNode.executor]

/-- How one `graph.stream` turn ends: normally, paused by an interrupt right
before a node (the CLI then shows the plan and asks for approval), or on a
raised exception. -/
inductive TurnResult where
  | completedTurn (s : GlobalState)
  | pausedBefore (n : MainNode) (s : GlobalState)
  | turnError (e : PyError) (n : MainNode) (s : GlobalState)
  | turnOutOfFuel (n : MainNode) (s : GlobalState)
deriving Repr, DecidableEq

/-- Fuel-based interpreter of one turn of the compiled main graph: before
running any node in `interrupt_before` the run pauses (LangGraph's
`interrupt_before` semantics); otherwise the node runs and the walk
continues. -/
def runTurn (o : MainOracles) : Nat → MainNode → GlobalState → TurnResult
  | 0, n, s => TurnResult.turnOutOfFuel n s
  | fuel + 1, n, s =>
      if n ∈ interrupt_before then
        TurnResult.pausedBefore n s
      else if n = MainNode.end_ then
        TurnResult.completedTurn s
      else
        match mainStep o n s with
        | Except.error e => TurnResult.turnError e n s
        | Except.ok (n', s') => runTurn o fuel n' s'

/-- Did the turn pause on an interrupt? (`snapshot.next` non-empty in the
CLI, which then prints the approval prompt.) -/
def TurnResult.isPaused : TurnResult → Bool
  | TurnResult.pausedBefore _ _ => true
  | _ => false

/-- Did the turn run to `END` without pausing? -/
def TurnResult.isCompleted : TurnResult → Bool
  | TurnResult.completedTurn _ => true
  | _ => false

theorem runTurn_pause (o : MainOracles) (f : Nat) (n : MainNode) (s : GlobalState)
    (hn : n ∈ interrupt_before) :
    runTurn o (f + 1) n s = TurnResult.pausedBefore n s := by
  simp [runTurn, hn]

theorem runTurn_cons (o : MainOracles) (f : Nat) (n : MainNode) (s : GlobalState)
    (n' : MainNode) (s' : GlobalState) (hn : ¬ n ∈ interrupt_before)
    (hne : n ≠ MainNode.end_) (h : mainStep o n s = Except.ok (n', s')) :
    runTurn o (f + 1) n s = runTurn o f n' s' := by
  simp [runTurn, hn, hne, h]

theorem runTurn_end (o : MainOracles) (f : Nat) (s : GlobalState) :
    runTurn o (f + 1) MainNode.end_ s = TurnResult.completedTurn s := by
  simp [runTurn, interrupt_before]

/-- The router's `{"_route_target": …}` write targets a non-schema key and is
dropped: the state is unchanged. -/
theorem applyUpdate_route (s : GlobalState) (t : String) :
    applyUpdate s { route_target := some t } = s := by
  cases s
  simp [applyUpdate]

/-- C5 (amended): no turn pauses — but not because a zero-step plan
short-circuits the interrupt.  The router's `"_route_target"` write is
dropped (non-schema key), so `route_request` returns its default
`"chat_node"` and every turn entered at the router completes in `chat_node`
without ever reaching the planner.  Conversely, any run that does reach the
`planner → executor` boundary pauses unconditionally —
`interrupt_before=["executor"]` has no plan-size check — empty plan
included. -/
theorem C5_turn_no_pause (o : MainOracles) (s : GlobalState) (f : Nat)
    (hmsg : s.messages ≠ []) (hf : 3 ≤ f) :
    runTurn o f MainNode.router s
      = TurnResult.completedTurn { s with messages := s.messages ++ [o.chatReply] } ∧
    (∀ (f2 : Nat) (s2 : GlobalState), 2 ≤ f2 →
      runTurn o f2 MainNode.planner s2
        = TurnResult.pausedBefore MainNode.executor
            (applyUpdate s2 (draft_plan o.parse o.plannerContent))) := by
  constructor
  · obtain ⟨fz, rfl⟩ : ∃ fz, f = fz + 3 := ⟨f - 3, by omega⟩
    obtain ⟨last, hlast⟩ := pyLast_ok s.messages hmsg
    have hrt : router o.routeCategory s = Except.ok
        { route_target := some (if strContains (pyUpper (pyStrip o.routeCategory)) "EXECUTE"
            then "planner"
            else if strContains (pyUpper (pyStrip o.routeCategory)) "RESEARCH"
            then "researcher" else "chat") } := by
      simp [router, hlast]
    have hrl : routeLookup "chat_node" = Except.ok MainNode.chat_node := by decide
    have hstep1 : mainStep o MainNode.router s = Except.ok (MainNode.chat_node, s) := by
      simp [mainStep, hrt, applyUpdate_route, route_request, pyGetNonSchema, hrl]
    have hstep2 : mainStep o MainNode.chat_node s
        = Except.ok (MainNode.end_, { s with messages := s.messages ++ [o.chatReply] }) := by
      simp [mainStep, applyUpdate_msgs]
    rw [show fz + 3 = (fz + 2) + 1 from rfl,
      runTurn_cons o (fz + 2) MainNode.router s MainNode.chat_node s
        (by simp [interrupt_before]) (by simp) hstep1,
      show fz + 2 = (fz + 1) + 1 from rfl,
      runTurn_cons o (fz + 1) MainNode.chat_node s MainNode.end_
        ({ s with messages := s.messages ++ [o.chatReply] })
        (by simp [interrupt_before]) (by simp) hstep2,
      runTurn_end]
  · intro f2 s2 hf2
    obtain ⟨fw, rfl⟩ : ∃ fw, f2 = fw + 2 := ⟨f2 - 2, by omega⟩
    have hstep : mainStep o MainNode.planner s2 = Except.ok
        (MainNode.executor, applyUpdate s2 (draft_plan o.parse o.plannerContent)) := rfl
    rw [show fw + 2 = (fw + 1) + 1 from rfl,
      runTurn_cons o (fw + 1) MainNode.planner s2 MainNode.executor _
        (by simp [interrupt_before]) (by simp) hstep,
      runTurn_pause o fw MainNode.executor _ (by simp [interrupt_before])]

/-- Oracles for a turn whose classifier answers EXECUTE and whose planner
completion fails to parse. -/
def mainBadOracles : MainOracles :=
  { routeCategory := "EXECUTE", plannerContent := "not json", parse := parse_fail,
    exec := execOk, res := resNoOracles, chatReply := "hello" }

/-- A fresh turn entry state. -/
def turnStartState : GlobalState :=
  { messages := ["delete temp files"], plan := [], current_step_index := 0,
    research_outputs := [], execution_history := [], user_validated := false,
    file_context := [] }

/-- C5 counterexample: the claimed mechanism does not exist.  Entering the
`planner → executor` boundary with a completion that parses to an *empty*
plan still pauses for approval — zero steps do not short-circuit the
interrupt path.  And in the turn as actually wired, the planner is never
reached at all: even with an EXECUTE classification the router's
`"_route_target"` write is dropped and the turn completes in `chat_node`. -/
theorem C5_counterexample :
    runTurn mainBadOracles 3 MainNode.planner turnStartState
      = TurnResult.pausedBefore MainNode.executor
          (applyUpdate turnStartState (draft_plan parse_fail "not json")) ∧
    (applyUpdate turnStartState (draft_plan parse_fail "not json")).plan = [] ∧
    (runTurn mainBadOracles 3 MainNode.planner turnStartState).isPaused = true ∧
    runTurn mainBadOracles 6 MainNode.router turnStartState
      = TurnResult.completedTurn
          { turnStartState with messages := turnStartState.messages ++ ["hello"] } ∧
    (runTurn mainBadOracles 6 MainNode.router turnStartState).isPaused = false := by
  refine ⟨by decide, by decide, by decide, by decide, by decide⟩

/-- Witness for the amended C5 at the concrete turn. -/
theorem C5_turn_no_pause_witness :
    (turnStartState.messages ≠ [] ∧ 3 ≤ 6) ∧
    (runTurn mainBadOracles 6 MainNode.router turnStartState
      = TurnResult.completedTurn
          { turnStartState with
              messages := turnStartState.messages ++ [mainBadOracles.chatReply] } ∧
    (∀ (f2 : Nat) (s2 : GlobalState), 2 ≤ f2 →
      runTurn mainBadOracles f2 MainNode.planner s2
        = TurnResult.pausedBefore MainNode.executor
            (applyUpdate s2
              (draft_plan mainBadOracles.parse mainBadOracles.plannerContent)))) :=
  ⟨⟨by decide, by decide⟩,
    C5_turn_no_pause mainBadOracles turnStartState 6 (by decide) (by decide)⟩

end AgenticCli
